import Mathlib

/-!
# libyaul / libsega3d: the polygon transform and the fix16 3x3 matrix library

A shallow embedding of `src/libsega3d/sega3d.c` (command staging, the
per-vertex projection loop and the depth-sort visit callback) and of
`src/libyaul/gamemath/fix16/fix16_mat33.c`, followed by the properties
proved about them.

Conventions of the embedding

* `FIXED` / `fix16_t` / `int32_t` values are `Int`s; every C operation that
  can leave the signed 32-bit range is followed by `wrap32`.
* Pointers into arrays of records are indices into a function `Nat → record`.
* Hardware and helpers whose code is not part of the sources are either
  parameters of the embedding or definitions marked `Modelled from the spec`.
-/

namespace Yaul

/-! ## Machine integers -/

/-- Two's complement reduction of an integer to the signed 32-bit range. -/
def wrap32 (x : Int) : Int := (x + 2147483648) % 4294967296 - 2147483648

/-- Two's complement reduction of an integer to the signed 16-bit range
(the conversion performed when an `int32_t` is stored in an `int16_t`). -/
def wrap16 (x : Int) : Int := (x + 32768) % 65536 - 32768

/-- The value is representable as a signed 32-bit integer. -/
def InInt32 (x : Int) : Prop := -2147483648 ≤ x ∧ x ≤ 2147483647

instance InInt32.decidable (x : Int) : Decidable (InInt32 x) := by
  unfold InInt32; infer_instance

/-- C `a + b` on `int32_t` operands, wrapping. -/
def add32 (a b : Int) : Int := wrap32 (a + b)

/-- C `a - b` on `int32_t` operands, wrapping. -/
def sub32 (a b : Int) : Int := wrap32 (a - b)

/-- C unary `-a` on an `int32_t` operand, wrapping. -/
def neg32 (a : Int) : Int := wrap32 (-a)

/-- C `x >> 16` on a signed 32-bit operand: an arithmetic right shift. -/
def asr16 (x : Int) : Int := Int.shiftRight x 16

/-- Modelled from the spec: `fix16_mul` (declared in the fix16 header, which
is not among the sources). The Q16.16 product: the 64-bit product shifted
right by 16 bits, reduced to 32 bits ("defined overflow wraparound inherited
from the fixed-point type"). -/
def fix16_mul (a b : Int) : Int := wrap32 (a * b / 65536)

/-- Modelled from the spec: the macro `toFIXED` applied to the literal `0.25f`
(`toFIXED` is not among the sources): the Q16.16 representation of 0.25. -/
def toFIXED_quarter : Int := 16384

/-- The Q16.16 representation of 1.0 (`FIX16_ONE`). -/
def FIX16_ONE : Int := 65536

/-- The Q16.16 representation of 0 (`FIX16_ZERO`). -/
def FIX16_ZERO : Int := 0

/-! ## The CPU division unit -/

/-- One access to the division unit. -/
inductive divu_op where
  | request (dividend divisor : Int)
  | fetch
  deriving DecidableEq

/-- The kind of an access, forgetting the operands of a request. -/
inductive divu_kind where
  | req
  | get
  deriving DecidableEq

/-- The kind of access. -/
def divu_op.kind : divu_op → divu_kind
  | .request _ _ => .req
  | .fetch => .get

/-- The division unit: the operand registers last written, and the history of
accesses (oldest first). -/
structure cpu_divu where
  dvdnt : Int
  dvsr : Int
  ops : List divu_op

/-- Modelled from the spec: the quotient the division primitive delivers for a
request `(dividend, divisor)` on Q16.16 operands (`cpu/divu.h` is not among the
sources): the dividend scaled by 2^16 and divided by the divisor, rounding
toward zero, reduced to 32 bits. -/
def divu_fix16_quotient (dividend divisor : Int) : Int :=
  wrap32 (Int.tdiv (dividend * 65536) divisor)

/-- Modelled from the spec: `cpu_divu_fix16_set`, the request step of the
division primitive. It latches the two operands. -/
def cpu_divu_fix16_set (u : cpu_divu) (dividend divisor : Int) : cpu_divu :=
  { dvdnt := dividend, dvsr := divisor, ops := u.ops ++ [divu_op.request dividend divisor] }

/-- Modelled from the spec: `cpu_divu_quotient_get`, the fetch step of the
division primitive. It delivers the quotient of the latched operands. -/
def cpu_divu_quotient_get (u : cpu_divu) : Int × cpu_divu :=
  (divu_fix16_quotient u.dvdnt u.dvsr, { u with ops := u.ops ++ [divu_op.fetch] })

/-! ## Mesh input and command records -/

/-- The array type `POINT`: object-space X, Y, Z. -/
abbrev POINT := Fin 3 → Int

/-- The array type `MATRIX`: four rows of three terms; row 3 is the translation. -/
abbrev MATRIX := Fin 4 → Fin 3 → Int

/-- Axis index `X`. -/
abbrev X : Fin 3 := 0
/-- Axis index `Y`. -/
abbrev Y : Fin 3 := 1
/-- Axis index `Z`. -/
abbrev Z : Fin 3 := 2

/-- A polygon: the four indices into the point table. -/
structure POLYGON where
  Vertices : Fin 4 → Nat

/-- The per-polygon attributes read by the staging code. -/
structure ATTR where
  texno : Nat
  atrb : Nat
  colno : Nat
  gstb : Nat
  dir : Nat
  deriving DecidableEq

/-- A texture descriptor. -/
structure TEXTURE where
  Hsize : Nat
  Vsize : Nat
  CGadr : Nat
  HVsize : Nat
  deriving DecidableEq

/-- The mesh: point table, polygon count, polygon table, attribute table. -/
structure PDATA where
  pntbl : Nat → POINT
  nbPolygon : Nat
  pltbl : Nat → POLYGON
  attbl : Nat → ATTR

/-- A pair of 16-bit screen coordinates. -/
structure int16_vector2_t where
  x : Int
  y : Int
  deriving DecidableEq

/-- A hardware command record. -/
structure vdp1_cmdt_t where
  cmd_ctrl : Nat
  cmd_link : Nat
  cmd_pmod : Nat
  cmd_colr : Nat
  cmd_srca : Nat
  cmd_size : Nat
  cmd_xa : Int
  cmd_ya : Int
  cmd_xb : Int
  cmd_yb : Int
  cmd_xc : Int
  cmd_yc : Int
  cmd_xd : Int
  cmd_yd : Int
  cmd_grda : Nat
  deriving DecidableEq

/-- Modelled from the spec: `vdp1_cmdt_param_vertex_set` (declared in
`vdp1/cmdt.h`, which is not among the sources). It stores a screen coordinate
pair as vertex `v` (0 = A, 1 = B, 2 = C, 3 = D) of the command record. -/
def vdp1_cmdt_param_vertex_set (cmdt : vdp1_cmdt_t) (v : Fin 4) (p : int16_vector2_t) :
    vdp1_cmdt_t :=
  match v with
  | 0 => { cmdt with cmd_xa := p.x, cmd_ya := p.y }
  | 1 => { cmdt with cmd_xb := p.x, cmd_yb := p.y }
  | 2 => { cmdt with cmd_xc := p.x, cmd_yc := p.y }
  | 3 => { cmdt with cmd_xd := p.x, cmd_yd := p.y }

/-- Vertex `v` of a command record, as a coordinate pair. -/
def vdp1_cmdt_t.vertex (cmdt : vdp1_cmdt_t) (v : Fin 4) : int16_vector2_t :=
  match v with
  | 0 => { x := cmdt.cmd_xa, y := cmdt.cmd_ya }
  | 1 => { x := cmdt.cmd_xb, y := cmdt.cmd_yb }
  | 2 => { x := cmdt.cmd_xc, y := cmdt.cmd_yc }
  | 3 => { x := cmdt.cmd_xd, y := cmdt.cmd_yd }

/-! ## `sega3d_cmdt_transform`: one vertex -/

/-- The twelve matrix terms `sega3d_cmdt_transform` copies into locals before
its loops (lines 144-158). -/
structure matrix_terms where
  tx : Int
  ty : Int
  tz : Int
  row0_x : Int
  row0_y : Int
  row0_z : Int
  row1_x : Int
  row1_y : Int
  row1_z : Int
  row2_x : Int
  row2_y : Int
  row2_z : Int

/-- The extraction of the locals from the top-of-stack matrix. -/
def matrix_terms_get (matrix : MATRIX) : matrix_terms :=
  { tx := matrix 3 0, ty := matrix 3 1, tz := matrix 3 2,
    row0_x := matrix 0 0, row0_y := matrix 1 0, row0_z := matrix 2 0,
    row1_x := matrix 0 1, row1_y := matrix 1 1, row1_z := matrix 2 1,
    row2_x := matrix 0 2, row2_y := matrix 1 2, row2_z := matrix 2 2 }

/-- The values the body of the vertex loop computes for one vertex. -/
structure vertex_values where
  /-- The camera-space coordinates: proj X, Y, Z before the perspective multiply. -/
  camera : Fin 3 → Int
  divisor : Int
  inverse_z : Int
  /-- The projected coordinates: proj X, Y, Z after the perspective multiply. -/
  proj : Fin 3 → Int
  proj_2d : int16_vector2_t

/-- The screen coordinate stored for a projected coordinate:
`proj_2d.x = (proj[X] >> 16)` with `proj_2d.x` an `int16_t`. -/
def screen_coord (v : Int) : Int := wrap16 (asr16 v)

/-- The body of the vertex loop (lines 181-210) for one object-space point:
the camera-space Z, the request to the division unit, the camera-space X and
Y, the fetch, the three perspective multiplies and the screen coordinates. -/
def transform_vertex (distance : Int) (t : matrix_terms) (point : POINT)
    (divu : cpu_divu) : vertex_values × cpu_divu :=
  let px := point X
  let py := point Y
  let pz := point Z
  let proj_z := add32 (add32 (add32 t.tz (fix16_mul t.row2_x px)) (fix16_mul t.row2_y py))
    (fix16_mul t.row2_z pz)
  let divisor := sub32 distance proj_z
  let divu1 := cpu_divu_fix16_set divu distance divisor
  let proj_x := add32 (add32 (add32 t.tx (fix16_mul t.row0_x px)) (fix16_mul t.row0_y py))
    (fix16_mul t.row0_z pz)
  let proj_y := add32 (add32 (add32 t.ty (fix16_mul t.row1_x px)) (fix16_mul t.row1_y py))
    (fix16_mul t.row1_z pz)
  let q := cpu_divu_quotient_get divu1
  let inverse_z := q.1
  let proj_x2 := fix16_mul proj_x inverse_z
  let proj_y2 := fix16_mul proj_y inverse_z
  let proj_z2 := fix16_mul proj_z inverse_z
  ({ camera := fun a => match a with
       | 0 => proj_x
       | 1 => proj_y
       | 2 => proj_z,
     divisor := divisor,
     inverse_z := inverse_z,
     proj := fun a => match a with
       | 0 => proj_x2
       | 1 => proj_y2
       | 2 => proj_z2,
     proj_2d := { x := screen_coord proj_x2, y := screen_coord proj_y2 } }, q.2)

/-! ## `sega3d_cmdt_transform`: one polygon -/

/-- The running state of the vertex loop of one polygon: the staged record
being filled, the division unit, and the depth accumulator `z_avg`. -/
structure polygon_acc where
  cmdt : vdp1_cmdt_t
  divu : cpu_divu
  z_avg : Int

/-- One iteration of the vertex loop (lines 175-213). -/
def vertex_step (distance : Int) (t : matrix_terms) (points : Nat → POINT)
    (polygon : POLYGON) (acc : polygon_acc) (v : Fin 4) : polygon_acc :=
  let vertex := polygon.Vertices v
  let point := points vertex
  let r := transform_vertex distance t point acc.divu
  { cmdt := vdp1_cmdt_param_vertex_set acc.cmdt v r.1.proj_2d,
    divu := r.2,
    z_avg := add32 acc.z_avg (r.1.proj Z) }

/-- The vertex loop `for (v = 0; v < 4; v++)` of one polygon, started with
`z_avg = 0`. -/
def vertex_loop (distance : Int) (t : matrix_terms) (points : Nat → POINT)
    (polygon : POLYGON) (copy_cmdt : vdp1_cmdt_t) (divu : cpu_divu) : polygon_acc :=
  ([0, 1, 2, 3] : List (Fin 4)).foldl (vertex_step distance t points polygon)
    { cmdt := copy_cmdt, divu := divu, z_avg := 0 }

/-- The depth handed to the sort for a polygon (lines 215-217):
`z_center = fix16_mul(z_avg, toFIXED(0.25f))`, then `z_center >> 16`. -/
def sort_depth (z_avg : Int) : Int := asr16 (fix16_mul z_avg toFIXED_quarter)

/-! ## The pipeline state -/

/-- A reference to a command record: either entry `i` of the staging list
allocated by `sega3d_init` (`_state.copy_cmdt_list->cmdts[i]`), or the record at
address `a` of the command table memory the caller supplies. -/
inductive cmdt_ptr where
  | copy (i : Nat)
  | list (a : Nat)
  deriving DecidableEq

/-- The depth sort, an external collaborator (`_internal_sort_clear`,
`_internal_sort_add`, `_internal_sort_iterate` are declared `extern` and their
code is not among the sources). It is a parameter of the embedding: a state
type with the three operations. `iterate` yields the packets of the nodes in
the order the callback is invoked on them, and the state left behind. -/
structure sort_ops (S : Type) where
  clear : S → S
  add : S → cmdt_ptr → Int → S
  iterate : S → List cmdt_ptr × S

/-- Everything `sega3d.c` reads or writes: the fields of the static `_state`,
the staging list it points to, the caller's command table memory, the sort,
the division unit, the matrix returned by `sega3d_matrix_top`, and the history
of texture lookups (texture numbers passed to `sega3d_tlist_tex_get`, oldest
first). -/
structure world (S : Type) where
  initialized : Bool
  distance : Int
  /-- The field transform_cmdt_list.cmdts: an address in the command table memory. -/
  transform_cmdts : Nat
  /-- The field transform_cmdt_list.count. Its C type is declared in a header
  that is not among the sources; the count is a natural number here. -/
  transform_count : Nat
  /-- The records of the staging list copy_cmdt_list, by index. Only the indices
  below the length copy_capacity belong to the list. -/
  copy_cmdts : Nat → vdp1_cmdt_t
  /-- The length of the staging list the pointer copy_cmdt_list refers to: none
  while the pointer is NULL (before sega3d_init), the allocated number of
  records afterwards. -/
  copy_capacity : Option Nat
  /-- Set once the code has indexed the staging list at or beyond its length or
  through the NULL pointer; the index is not checked in C, whose behaviour is
  undefined from then on. -/
  staging_fault : Bool
  /-- The command table memory of the caller. -/
  cmdts : Nat → vdp1_cmdt_t
  sort : S
  divu : cpu_divu
  matrix_top : MATRIX
  tex_lookups : List Nat

/-- Assignment to one element of an array of records. -/
def store {α : Type} (m : Nat → α) (i : Nat) (x : α) : Nat → α :=
  fun j => if j = i then x else m j

/-- The index `i` is within the staging list: the list is allocated and `i` is
below its length. -/
def world.staging_index_ok {S : Type} (w : world S) (i : Nat) : Bool :=
  match w.copy_capacity with
  | none => false
  | some cap => decide (i < cap)

/-- The record a reference points to. -/
def world.deref {S : Type} (w : world S) : cmdt_ptr → vdp1_cmdt_t
  | .copy i => w.copy_cmdts i
  | .list a => w.cmdts a

/-! ## `sega3d_cmdt_prepare` -/

/-- The texture list, an external collaborator: the descriptor
`sega3d_tlist_tex_get` returns for a texture number, and the value of
`sega3d_tlist_count_get`. -/
structure tlist where
  tex_get : Nat → TEXTURE
  count : Nat

/-- The body of the staging loop for polygon `i` (lines 98-132). The record is
`&_state.copy_cmdt_list->cmdts[i]`, taken without a check of `i` against the
length of the list, and written through the pointer `cmdt` field by field.
With `debug` (the build defines `DEBUG`) the texture number is asserted after
the lookup; `Except.error` is the assertion failing, with the state reached at
that point. -/
def prepare_step {S : Type} (debug : Bool) (tl : tlist) (pdata : PDATA)
    (w : world S) (i : Nat) : Except (world S) (world S) :=
  let cmdt := w.copy_cmdts i
  let attr := pdata.attbl i
  let cmdt := { cmdt with cmd_ctrl := attr.dir }
  let cmdt := { cmdt with cmd_link := 0 }
  let cmdt := { cmdt with cmd_pmod := attr.atrb }
  let cmdt := { cmdt with cmd_colr := attr.colno }
  let cmdt := if false then
      { cmdt with cmd_ctrl := 5, cmd_pmod := 192, cmd_colr := 65535 }
    else cmdt
  let texture := tl.tex_get attr.texno
  let w := { w with
    copy_cmdts := store w.copy_cmdts i cmdt,
    staging_fault := w.staging_fault || !(w.staging_index_ok i),
    tex_lookups := w.tex_lookups ++ [attr.texno] }
  if debug && (attr.texno != 0 && !(decide (attr.texno < tl.count))) then
    Except.error w
  else
    let cmdt := { cmdt with cmd_srca := texture.CGadr }
    let cmdt := { cmdt with cmd_size := texture.HVsize }
    let cmdt := { cmdt with cmd_grda := attr.gstb }
    Except.ok { w with copy_cmdts := store w.copy_cmdts i cmdt }

/-- The loop `for (i = 0; i < nbPolygon; i++)` of `sega3d_cmdt_prepare` over
the remaining indices. -/
def prepare_loop {S : Type} (debug : Bool) (tl : tlist) (pdata : PDATA) :
    List Nat → world S → Except (world S) (world S)
  | [], w => Except.ok w
  | i :: is, w =>
    match prepare_step debug tl pdata w i with
    | Except.error e => Except.error e
    | Except.ok w1 => prepare_loop debug tl pdata is w1

/-- The function `sega3d_cmdt_prepare(pdata, cmdt_list, offset)`; `cmdts` is
the address `cmdt_list->cmdts` in the command table memory. The three pointer
assertions hold by construction. -/
def sega3d_cmdt_prepare {S : Type} (debug : Bool) (tl : tlist) (pdata : PDATA)
    (cmdts : Nat) (offset : Nat) (w : world S) : Except (world S) (world S) :=
  let w := { w with transform_cmdts := cmdts + offset }
  let w := { w with transform_count := 0 }
  prepare_loop debug tl pdata (List.range pdata.nbPolygon) w

/-! ## `sega3d_cmdt_transform` and `_sort_iterate` -/

/-- The visit callback `_sort_iterate(single)`; `packet` is `single->packet`. -/
def _sort_iterate {S : Type} (w : world S) (packet : cmdt_ptr) : world S :=
  let sort_cmdt := w.deref packet
  let transform_cmdt := w.transform_cmdts + w.transform_count
  let w := { w with cmdts := store w.cmdts transform_cmdt sort_cmdt }
  { w with transform_count := w.transform_count + 1 }

/-- The call `_internal_sort_iterate(fn)`: the callback is invoked on every
node the sort visits, in that order. -/
def _internal_sort_iterate {S : Type} (ops : sort_ops S)
    (fn : world S → cmdt_ptr → world S) (w : world S) : world S :=
  let r := ops.iterate w.sort
  r.1.foldl fn { w with sort := r.2 }

/-- The body of the polygon loop for polygon `i` (lines 164-217); the staged
record is `&_state.copy_cmdt_list->cmdts[i]`, taken without a check of `i`
against the length of the list. -/
def polygon_step {S : Type} (ops : sort_ops S) (t : matrix_terms) (pdata : PDATA)
    (w : world S) (i : Nat) : world S :=
  let polygon := pdata.pltbl i
  let acc := vertex_loop w.distance t pdata.pntbl polygon (w.copy_cmdts i) w.divu
  let w := { w with
    copy_cmdts := store w.copy_cmdts i acc.cmdt,
    staging_fault := w.staging_fault || !(w.staging_index_ok i),
    divu := acc.divu }
  { w with sort := ops.add w.sort (cmdt_ptr.copy i) (sort_depth acc.z_avg) }

/-- The function `sega3d_cmdt_transform(pdata)`. -/
def sega3d_cmdt_transform {S : Type} (ops : sort_ops S) (pdata : PDATA)
    (w : world S) : world S :=
  let w := { w with sort := ops.clear w.sort }
  let t := matrix_terms_get w.matrix_top
  let w := (List.range pdata.nbPolygon).foldl (polygon_step ops t pdata) w
  let w := { w with transform_count := 0 }
  _internal_sort_iterate ops _sort_iterate w

/-! ## `fix16_mat33.c` -/

/-- The type `fix16_vec3_t`. -/
structure fix16_vec3_t where
  x : Int
  y : Int
  z : Int
  deriving DecidableEq

/-- The type `fix16_mat33_t`, by its nine components in row-major order; the
views `arr`, `frow` and `row` of the C union are the accessors below. -/
structure fix16_mat33_t where
  m00 : Int
  m01 : Int
  m02 : Int
  m10 : Int
  m11 : Int
  m12 : Int
  m20 : Int
  m21 : Int
  m22 : Int
  deriving DecidableEq

/-- The view `arr[k]` of a matrix, for `k` in 0..8. -/
def fix16_mat33_t.arr (m : fix16_mat33_t) (k : Nat) : Int :=
  match k with
  | 0 => m.m00
  | 1 => m.m01
  | 2 => m.m02
  | 3 => m.m10
  | 4 => m.m11
  | 5 => m.m12
  | 6 => m.m20
  | 7 => m.m21
  | 8 => m.m22
  | _ => 0

/-- The view `frow[i][j]` of a matrix: element `3 * i + j` of `arr`. -/
def fix16_mat33_t.frow (m : fix16_mat33_t) (i j : Fin 3) : Int :=
  m.arr (3 * i.val + j.val)

/-- The view `row[i]` of a matrix. -/
def fix16_mat33_t.row (m : fix16_mat33_t) (i : Fin 3) : fix16_vec3_t :=
  { x := m.frow i 0, y := m.frow i 1, z := m.frow i 2 }

/-- The assignment `frow[i][j] = x`. -/
def fix16_mat33_t.frow_set (m : fix16_mat33_t) (i j : Fin 3) (x : Int) : fix16_mat33_t :=
  match i, j with
  | 0, 0 => { m with m00 := x }
  | 0, 1 => { m with m01 := x }
  | 0, 2 => { m with m02 := x }
  | 1, 0 => { m with m10 := x }
  | 1, 1 => { m with m11 := x }
  | 1, 2 => { m with m12 := x }
  | 2, 0 => { m with m20 := x }
  | 2, 1 => { m with m21 := x }
  | 2, 2 => { m with m22 := x }

/-- The assignment of a vector to `row[i]`. -/
def fix16_mat33_t.row_set (m : fix16_mat33_t) (i : Fin 3) (v : fix16_vec3_t) : fix16_mat33_t :=
  ((m.frow_set i 0 v.x).frow_set i 1 v.y).frow_set i 2 v.z

/-- The function `_mat33_row_transpose(&m->arr[k], out)`: the vector
`(arr[k], arr[k + 3], arr[k + 6])`. -/
def _mat33_row_transpose (m : fix16_mat33_t) (k : Nat) : fix16_vec3_t :=
  { x := m.arr (k + 0), y := m.arr (k + 3), z := m.arr (k + 6) }

/-- The store `p->frow[i][j] = x` through a matrix pointer `p` into a memory of
matrices. -/
def frow_store (mem : Nat → fix16_mat33_t) (p : Nat) (i j : Fin 3) (x : Int) :
    Nat → fix16_mat33_t :=
  store mem p ((mem p).frow_set i j x)

/-- The function `fix16_mat33_mul(m0, m1, result)` on a memory of matrices, the
three arguments being pointers that may coincide. The dot product
`fix16_vec3_dot` is not among the sources and is a parameter. Every read goes
to the memory as it stands at that point of the function. -/
def fix16_mat33_mul (dot : fix16_vec3_t → fix16_vec3_t → Int)
    (mem : Nat → fix16_mat33_t) (m0 m1 result : Nat) : Nat → fix16_mat33_t :=
  let transposed_row := _mat33_row_transpose (mem m1) 0
  let mem := frow_store mem result 0 0 (dot ((mem m0).row 0) transposed_row)
  let mem := frow_store mem result 1 0 (dot ((mem m0).row 1) transposed_row)
  let mem := frow_store mem result 2 0 (dot ((mem m0).row 2) transposed_row)
  let transposed_row := _mat33_row_transpose (mem m1) 1
  let mem := frow_store mem result 0 1 (dot ((mem m0).row 0) transposed_row)
  let mem := frow_store mem result 1 1 (dot ((mem m0).row 1) transposed_row)
  let mem := frow_store mem result 2 1 (dot ((mem m0).row 2) transposed_row)
  let transposed_row := _mat33_row_transpose (mem m1) 2
  let mem := frow_store mem result 0 2 (dot ((mem m0).row 0) transposed_row)
  let mem := frow_store mem result 1 2 (dot ((mem m0).row 1) transposed_row)
  let mem := frow_store mem result 2 2 (dot ((mem m0).row 2) transposed_row)
  mem

/-- Column `j` of a matrix as a vector: `(frow[0][j], frow[1][j], frow[2][j])`. -/
def fix16_mat33_t.col (m : fix16_mat33_t) (j : Fin 3) : fix16_vec3_t :=
  { x := m.frow 0 j, y := m.frow 1 j, z := m.frow 2 j }

/-- The vector helpers `fix16_mat33_lookat` calls, which are not among the
sources and are parameters: `sub a b` is the vector `fix16_vec3_sub(a, b, out)`
stores (the difference a - b), `cross a b` the vector
`fix16_vec3_cross(a, b, out)` stores, and `normalize v` the vector
`fix16_vec3_normalize(v)` leaves in `v`. -/
structure vec3_ops where
  sub : fix16_vec3_t → fix16_vec3_t → fix16_vec3_t
  cross : fix16_vec3_t → fix16_vec3_t → fix16_vec3_t
  normalize : fix16_vec3_t → fix16_vec3_t

/-- The function `fix16_mat33_lookat(from, to, up, result)`; the argument
`result` is the prior content of the result matrix. -/
def fix16_mat33_lookat (ops : vec3_ops) (v_from v_to up : fix16_vec3_t)
    (result : fix16_mat33_t) : fix16_mat33_t :=
  let result := result.row_set 2 (ops.sub v_to v_from)
  let result := result.row_set 2 (ops.normalize (result.row 2))
  let result := result.row_set 0 (ops.cross (result.row 2) up)
  let result := result.row_set 0 (ops.normalize (result.row 0))
  let result := result.row_set 1 (ops.cross (result.row 2) (result.row 0))
  let result := result.row_set 1 (ops.normalize (result.row 1))
  result

/-- A sample dot product for concrete evaluation: the three products
accumulated at full width, shifted right by 16 and reduced to 32 bits. -/
def sample_dot (a b : fix16_vec3_t) : Int :=
  wrap32 ((a.x * b.x + a.y * b.y + a.z * b.z) / 65536)

/-- A sample memory of matrices: a diagonal matrix at address 0, a full
matrix at address 1, zero matrices elsewhere. -/
def sample_mats (p : Nat) : fix16_mat33_t :=
  match p with
  | 0 => { m00 := 131072, m01 := 0, m02 := 0, m10 := 0, m11 := 65536, m12 := 0,
           m20 := 0, m21 := 0, m22 := 32768 }
  | 1 => { m00 := 65536, m01 := 131072, m02 := 196608, m10 := 262144, m11 := 327680,
           m12 := 393216, m20 := 458752, m21 := 524288, m22 := 589824 }
  | _ => { m00 := 0, m01 := 0, m02 := 0, m10 := 0, m11 := 0, m12 := 0,
           m20 := 0, m21 := 0, m22 := 0 }

/-- The assignment `arr[k] = x`, for `k` in 0..8. -/
def fix16_mat33_t.arr_set (m : fix16_mat33_t) (k : Nat) (x : Int) : fix16_mat33_t :=
  match k with
  | 0 => { m with m00 := x }
  | 1 => { m with m01 := x }
  | 2 => { m with m02 := x }
  | 3 => { m with m10 := x }
  | 4 => { m with m11 := x }
  | 5 => { m with m12 := x }
  | 6 => { m with m20 := x }
  | 7 => { m with m21 := x }
  | 8 => { m with m22 := x }
  | _ => m

/-- The function `fix16_mat33_identity(m0)`: nine stores through `arr_ptr`. -/
def fix16_mat33_identity (m0 : fix16_mat33_t) : fix16_mat33_t :=
  let m0 := m0.arr_set 0 FIX16_ONE
  let m0 := m0.arr_set 1 FIX16_ZERO
  let m0 := m0.arr_set 2 FIX16_ZERO
  let m0 := m0.arr_set 3 FIX16_ZERO
  let m0 := m0.arr_set 4 FIX16_ONE
  let m0 := m0.arr_set 5 FIX16_ZERO
  let m0 := m0.arr_set 6 FIX16_ZERO
  let m0 := m0.arr_set 7 FIX16_ZERO
  let m0 := m0.arr_set 8 FIX16_ONE
  m0

/-- The function `fix16_mat33_transpose(m0, result)`; the two pointers are
`__restrict`, so `m0` is read unchanged throughout. The argument `result` is
the prior content of the result matrix. -/
def fix16_mat33_transpose (m0 result : fix16_mat33_t) : fix16_mat33_t :=
  let result := result.frow_set 0 0 (m0.frow 0 0)
  let result := result.frow_set 0 1 (m0.frow 1 0)
  let result := result.frow_set 0 2 (m0.frow 2 0)
  let result := result.frow_set 1 0 (m0.frow 0 1)
  let result := result.frow_set 1 1 (m0.frow 1 1)
  let result := result.frow_set 1 2 (m0.frow 2 1)
  let result := result.frow_set 2 0 (m0.frow 0 2)
  let result := result.frow_set 2 1 (m0.frow 1 2)
  let result := result.frow_set 2 2 (m0.frow 2 2)
  result

/-- The function `fix16_mat33_x_rotate(m0, angle, result)` on a memory of
matrices; `m0` and `result` are pointers that may coincide. The table lookup
`fix16_sincos` is not among the sources and is a parameter yielding the pair
(sine, cosine). The six terms of `m0` are read into locals before any store. -/
def fix16_mat33_x_rotate (sincos : Int → Int × Int) (mem : Nat → fix16_mat33_t)
    (m0 : Nat) (angle : Int) (result : Nat) : Nat → fix16_mat33_t :=
  let sin_value := (sincos angle).1
  let cos_value := (sincos angle).2
  let m01 := (mem m0).frow 0 1
  let m02 := (mem m0).frow 0 2
  let m11 := (mem m0).frow 1 1
  let m12 := (mem m0).frow 1 2
  let m21 := (mem m0).frow 2 1
  let m22 := (mem m0).frow 2 2
  let mem := frow_store mem result 0 1
    (add32 (fix16_mul m01 cos_value) (fix16_mul m02 sin_value))
  let mem := frow_store mem result 0 2
    (add32 (neg32 (fix16_mul m01 sin_value)) (fix16_mul m02 cos_value))
  let mem := frow_store mem result 1 1
    (add32 (fix16_mul m11 cos_value) (fix16_mul m12 sin_value))
  let mem := frow_store mem result 1 2
    (add32 (neg32 (fix16_mul m11 sin_value)) (fix16_mul m12 cos_value))
  let mem := frow_store mem result 2 1
    (add32 (fix16_mul m21 cos_value) (fix16_mul m22 sin_value))
  let mem := frow_store mem result 2 2
    (add32 (neg32 (fix16_mul m21 sin_value)) (fix16_mul m22 cos_value))
  mem

/-- The function `fix16_mat33_y_rotate(m0, angle, result)` on a memory of
matrices. -/
def fix16_mat33_y_rotate (sincos : Int → Int × Int) (mem : Nat → fix16_mat33_t)
    (m0 : Nat) (angle : Int) (result : Nat) : Nat → fix16_mat33_t :=
  let sin_value := (sincos angle).1
  let cos_value := (sincos angle).2
  let m00 := (mem m0).frow 0 0
  let m02 := (mem m0).frow 0 2
  let m10 := (mem m0).frow 1 0
  let m12 := (mem m0).frow 1 2
  let m20 := (mem m0).frow 2 0
  let m22 := (mem m0).frow 2 2
  let mem := frow_store mem result 0 0
    (sub32 (fix16_mul m00 cos_value) (fix16_mul m02 sin_value))
  let mem := frow_store mem result 0 2
    (add32 (fix16_mul m00 sin_value) (fix16_mul m02 cos_value))
  let mem := frow_store mem result 1 0
    (sub32 (fix16_mul m10 cos_value) (fix16_mul m12 sin_value))
  let mem := frow_store mem result 1 2
    (add32 (fix16_mul m10 sin_value) (fix16_mul m12 cos_value))
  let mem := frow_store mem result 2 0
    (sub32 (fix16_mul m20 cos_value) (fix16_mul m22 sin_value))
  let mem := frow_store mem result 2 2
    (add32 (fix16_mul m20 sin_value) (fix16_mul m22 cos_value))
  mem

/-- The function `fix16_mat33_z_rotate(m0, angle, result)` on a memory of
matrices. -/
def fix16_mat33_z_rotate (sincos : Int → Int × Int) (mem : Nat → fix16_mat33_t)
    (m0 : Nat) (angle : Int) (result : Nat) : Nat → fix16_mat33_t :=
  let sin_value := (sincos angle).1
  let cos_value := (sincos angle).2
  let m00 := (mem m0).frow 0 0
  let m01 := (mem m0).frow 0 1
  let m10 := (mem m0).frow 1 0
  let m11 := (mem m0).frow 1 1
  let m20 := (mem m0).frow 2 0
  let m21 := (mem m0).frow 2 1
  let mem := frow_store mem result 0 0
    (add32 (fix16_mul m00 cos_value) (fix16_mul m01 sin_value))
  let mem := frow_store mem result 0 1
    (add32 (neg32 (fix16_mul m00 sin_value)) (fix16_mul m01 cos_value))
  let mem := frow_store mem result 1 0
    (add32 (fix16_mul m10 cos_value) (fix16_mul m11 sin_value))
  let mem := frow_store mem result 1 1
    (add32 (neg32 (fix16_mul m10 sin_value)) (fix16_mul m11 cos_value))
  let mem := frow_store mem result 2 0
    (add32 (fix16_mul m20 cos_value) (fix16_mul m21 sin_value))
  let mem := frow_store mem result 2 1
    (add32 (neg32 (fix16_mul m20 sin_value)) (fix16_mul m21 cos_value))
  mem

/-- The function `fix16_mat33_rotation_create(rx, ry, rz, result)`; the
argument `result` is the prior content of the result matrix. -/
def fix16_mat33_rotation_create (sincos : Int → Int × Int) (rx ry rz : Int)
    (result : fix16_mat33_t) : fix16_mat33_t :=
  let sx := (sincos rx).1
  let cx := (sincos rx).2
  let sy := (sincos ry).1
  let cy := (sincos ry).2
  let sz := (sincos rz).1
  let cz := (sincos rz).2
  let sxsy := fix16_mul sx sy
  let cxsy := fix16_mul cx sy
  let result := result.frow_set 0 0 (fix16_mul cy cz)
  let result := result.frow_set 0 1 (add32 (fix16_mul sxsy cz) (fix16_mul cx sz))
  let result := result.frow_set 0 2 (add32 (fix16_mul (neg32 cxsy) cz) (fix16_mul sx sz))
  let result := result.frow_set 1 0 (fix16_mul (neg32 cy) sz)
  let result := result.frow_set 1 1 (add32 (fix16_mul (neg32 sxsy) sz) (fix16_mul cx cz))
  let result := result.frow_set 1 2 (add32 (fix16_mul cxsy sz) (fix16_mul sx cz))
  let result := result.frow_set 2 0 sy
  let result := result.frow_set 2 1 (fix16_mul (neg32 sx) cy)
  let result := result.frow_set 2 2 (fix16_mul cx cy)
  result

/-! ## `camera.c` -/

/-- The type `fix16_mat43_t`, by its view `frow[i][j]`; its declaration is not
among the sources. -/
abbrev fix16_mat43_t := Nat → Nat → Int

/-- The matrices of `__state.render` the camera functions refer to. -/
structure render_t where
  camera : fix16_mat43_t
  inv_camera : fix16_mat43_t

/-- The function `camera_forward_get(forward)`: the vector left in `*forward`
and the render state afterwards; `normalize v` is the vector
`fix16_vec3_normalize(v)` leaves in `v`. -/
def camera_forward_get (normalize : fix16_vec3_t → fix16_vec3_t) (render : render_t) :
    fix16_vec3_t × render_t :=
  let view_matrix := render.camera
  let forward : fix16_vec3_t :=
    { x := neg32 (view_matrix 2 0), y := neg32 (view_matrix 2 1), z := neg32 (view_matrix 2 2) }
  (normalize forward, render)

/-- The function `camera_up_get(up)`. -/
def camera_up_get (normalize : fix16_vec3_t → fix16_vec3_t) (render : render_t) :
    fix16_vec3_t × render_t :=
  let view_matrix := render.camera
  let up : fix16_vec3_t :=
    { x := view_matrix 1 0, y := view_matrix 1 1, z := view_matrix 1 2 }
  (normalize up, render)

/-- The function `camera_right_get(right)`. -/
def camera_right_get (normalize : fix16_vec3_t → fix16_vec3_t) (render : render_t) :
    fix16_vec3_t × render_t :=
  let view_matrix := render.camera
  let right : fix16_vec3_t :=
    { x := view_matrix 0 0, y := view_matrix 0 1, z := view_matrix 0 2 }
  (normalize right, render)

/-! ## `sega3d_init` -/

/-- The constant `PACKET_SIZE` of `sega3d-internal.h`. -/
def PACKET_SIZE : Nat := 4096

/-- What `sega3d_init` takes from outside `sega3d.c`: the macro
`PROJECTION_DISTANCE`, the allocator `vdp1_cmdt_list_alloc` (on an allocator
state `A`; it yields the initial content of the records of the new list, which
has as many records as were asked for, or nothing for `NULL`) and
the effect of `_internal_matrix_init` on the top-of-stack matrix. None of them
is among the sources. -/
structure init_env (A : Type) where
  PROJECTION_DISTANCE : Int
  vdp1_cmdt_list_alloc : A → Nat → Option (Nat → vdp1_cmdt_t) × A
  matrix_init : MATRIX → MATRIX

/-- The pipeline state together with the allocator state. -/
structure system (S A : Type) where
  w : world S
  heap : A

/-- The function `sega3d_init()`. `Except.error` is the assertion on the
allocated list failing. -/
def sega3d_init {S A : Type} (env : init_env A) (s : system S A) :
    Except (system S A) (system S A) :=
  if s.w.initialized then
    Except.ok s
  else
    let w := { s.w with initialized := true }
    let w := { w with distance := neg32 env.PROJECTION_DISTANCE }
    let r := env.vdp1_cmdt_list_alloc s.heap PACKET_SIZE
    match r.1 with
    | none => Except.error { w := w, heap := r.2 }
    | some list =>
      let w := { w with copy_cmdts := list, copy_capacity := some PACKET_SIZE }
      let w := { w with matrix_top := env.matrix_init w.matrix_top }
      Except.ok { w := w, heap := r.2 }

/-! ## `dbgio/devices/vdp2.c` -/

/-- The constant `STATE_IDLE`. -/
def STATE_IDLE : Nat := 0
/-- The constant `STATE_INITIALIZED`. -/
def STATE_INITIALIZED : Nat := 1
/-- The constant `STATE_BUFFER_DIRTY`. -/
def STATE_BUFFER_DIRTY : Nat := 2
/-- The constant `STATE_BUFFER_FLUSHING`. -/
def STATE_BUFFER_FLUSHING : Nat := 4

/-- The fields of `dev_state_t` the console functions read or write; `state` is
a `uint8_t`, `page_pnd` the page buffer by element index. -/
structure dev_state_t where
  cp_table : Nat
  color_palette : Nat
  page_pnd : Int → Nat
  page_width : Int
  pnd_clear : Nat
  state : Nat

/-- A transfer handed to `dma_queue_enqueue`, by the register buffer it
names: the font tables (no completion handler) or the page buffer (completion
handler `_dma_handler`). -/
inductive dma_request where
  | font_tables
  | page_buffer
  deriving DecidableEq

/-- The device state `*_dev_state` and the DMA queue (oldest request first). -/
structure dbgio_world where
  dev : dev_state_t
  dma_queue : List dma_request

/-- The function `_flush()`. -/
def _flush (w : dbgio_world) : dbgio_world :=
  if w.dev.state ≠ STATE_BUFFER_DIRTY then
    w
  else
    let w := { w with dev := { w.dev with state := w.dev.state ||| STATE_BUFFER_FLUSHING } }
    { w with dma_queue := w.dma_queue ++ [dma_request.page_buffer] }

/-- The function `_dma_handler(work)`: on a `uint8_t`, clearing the bits
`STATE_BUFFER_DIRTY | STATE_BUFFER_FLUSHING` is the mask with 0xF9. -/
def _dma_handler (w : dbgio_world) : dbgio_world :=
  let w := { w with dev := { w.dev with state := w.dev.state &&& 249 } }
  { w with dev := { w.dev with state := w.dev.state ||| STATE_INITIALIZED } }

/-- The function `_pnd_write(col, row, value)`; `offset` is an `int16_t`. -/
def _pnd_write (w : dbgio_world) (col row : Int) (value : Nat) : dbgio_world :=
  let offset := wrap16 (col + row * w.dev.page_width)
  { w with dev := { w.dev with
      page_pnd := fun k => if k = offset then value else w.dev.page_pnd k } }

/-- The function `_buffer_write(col, row, ch)`. The macro `SCRN_PND_CONFIG_0`
is not among the sources and is a parameter (of its first two arguments, the
other two being 0); its value is stored in a `uint16_t`. -/
def _buffer_write (pnd_config : Nat → Nat → Nat) (w : dbgio_world) (col row : Int)
    (ch : Nat) : dbgio_world :=
  let w := { w with dev := { w.dev with state := w.dev.state ||| STATE_BUFFER_DIRTY } }
  let pnd := pnd_config (w.dev.cp_table ||| (ch <<< 5)) w.dev.color_palette % 65536
  _pnd_write w col row pnd

/-- The parameters of the console, type `dbgio_vdp2_t` (declared in `dbgio.h`,
not among the sources): the fields `_init` asserts on. Pointers are addresses,
0 for `NULL`; the VRAM cycle patterns are left out. -/
structure dbgio_vdp2_t where
  font_cpd : Nat
  font_pal : Nat
  font_fg : Int
  font_bg : Int
  scrn : Int
  cpd_bank : Int
  cpd_offset : Int
  pnd_bank : Int
  pnd_offset : Int
  cram_index : Int

/-- The constants of the VDP2 headers the assertions of `_init` compare with;
the headers are not among the sources. -/
structure vdp2_consts where
  SCRN_NBG0 : Int
  SCRN_NBG1 : Int
  SCRN_NBG2 : Int
  SCRN_NBG3 : Int
  SCRN_RBG0 : Int
  SCRN_RBG1 : Int
  VRAM_4SPLIT_BANK_SIZE_4MBIT : Int

/-- The assertions at the start of `_init` (lines 140-168), in order. The
argument is `none` for a `NULL` pointer; `Except.error n` is the assertion of
source line `n` failing. -/
def _init_asserts (k : vdp2_consts) (params : Option dbgio_vdp2_t) : Except Nat Unit :=
  match params with
  | none => Except.error 140
  | some p =>
    if ¬ (p.font_cpd ≠ 0) then Except.error 142
    else if ¬ (p.font_pal ≠ 0) then Except.error 143
    else if ¬ (p.font_fg ≥ 0 ∧ p.font_bg ≤ 15) then Except.error 145
    else if ¬ (p.font_bg ≥ 0 ∧ p.font_bg ≤ 15) then Except.error 146
    else if ¬ (p.scrn = k.SCRN_NBG0 ∨ p.scrn = k.SCRN_NBG1 ∨ p.scrn = k.SCRN_NBG2 ∨
        p.scrn = k.SCRN_NBG3) then Except.error 148
    else if ¬ (p.scrn ≠ k.SCRN_RBG0 ∧ p.scrn ≠ k.SCRN_RBG1) then Except.error 153
    else if ¬ (p.cpd_bank ≥ 0 ∧ p.cpd_bank ≤ 3) then Except.error 156
    else if ¬ (p.cpd_offset < k.VRAM_4SPLIT_BANK_SIZE_4MBIT) then Except.error 159
    else if ¬ (p.pnd_bank ≥ 0 ∧ p.pnd_bank ≤ 3) then Except.error 161
    else if ¬ (p.cram_index ≥ 0 ∧ p.cram_index < 128) then Except.error 168
    else Except.ok ()

/-- The values of `_default_params` (lines 75-111), with sample non-null
addresses for the two font tables and the scroll screen number `scrn`. -/
def _default_params (scrn : Int) : dbgio_vdp2_t :=
  { font_cpd := 4096, font_pal := 8192, font_fg := 7, font_bg := 0, scrn := scrn,
    cpd_bank := 3, cpd_offset := 0, pnd_bank := 3, pnd_offset := 2, cram_index := 0 }

/-! ## Reference descriptions used in the statements -/

/-- A division unit on which nothing has happened yet. -/
def divu_idle : cpu_divu := { dvdnt := 0, dvsr := 0, ops := [] }

/-- The values the vertex loop computes for vertex `v` of polygon `i` of a
mesh, under the projection distance `distance` and the extracted terms `t`. -/
def polygon_vertex (distance : Int) (t : matrix_terms) (pdata : PDATA) (i : Nat)
    (v : Fin 4) : vertex_values :=
  (transform_vertex distance t (pdata.pntbl ((pdata.pltbl i).Vertices v)) divu_idle).1

/-- The values the vertex loop computes for vertex `v` of polygon `i` of a
mesh, under the projection distance `distance` and the matrix `matrix`. -/
def mesh_vertex (distance : Int) (matrix : MATRIX) (pdata : PDATA) (i : Nat)
    (v : Fin 4) : vertex_values :=
  polygon_vertex distance (matrix_terms_get matrix) pdata i v

/-- The accesses to the division unit made for polygon `i`: for each of its
four vertices in turn, the request with the vertex's divisor, then the fetch. -/
def polygon_ops (distance : Int) (t : matrix_terms) (pdata : PDATA) (i : Nat) :
    List divu_op :=
  ([0, 1, 2, 3] : List (Fin 4)).flatMap fun v =>
    [divu_op.request distance (polygon_vertex distance t pdata i v).divisor, divu_op.fetch]

/-- The value of the accumulator `z_avg` after the vertex loop of polygon `i`. -/
def polygon_z_avg (distance : Int) (t : matrix_terms) (pdata : PDATA) (i : Nat) : Int :=
  ([0, 1, 2, 3] : List (Fin 4)).foldl
    (fun z v => add32 z ((polygon_vertex distance t pdata i v).proj Z)) 0

/-- The exact sum of the four projected depths of polygon `i`. -/
def polygon_depth_sum (distance : Int) (t : matrix_terms) (pdata : PDATA) (i : Nat) : Int :=
  (polygon_vertex distance t pdata i 0).proj Z + (polygon_vertex distance t pdata i 1).proj Z
    + (polygon_vertex distance t pdata i 2).proj Z + (polygon_vertex distance t pdata i 3).proj Z

/-- The record `c` with the four screen vertices of polygon `i` stored in it. -/
def polygon_cmdt (distance : Int) (t : matrix_terms) (pdata : PDATA) (i : Nat)
    (c : vdp1_cmdt_t) : vdp1_cmdt_t :=
  ([0, 1, 2, 3] : List (Fin 4)).foldl
    (fun c v => vdp1_cmdt_param_vertex_set c v (polygon_vertex distance t pdata i v).proj_2d) c

/-- The request/fetch discipline of the division unit on a sequence of access
kinds: a request is allowed only when no result is pending, a fetch only when
one is, and nothing is left pending at the end. The flag is "a result is
pending". -/
def divu_paired : Bool → List divu_kind → Bool
  | pending, [] => !pending
  | false, divu_kind.req :: r => divu_paired true r
  | true, divu_kind.get :: r => divu_paired false r
  | _, _ => false

/-- The camera-space coordinate on axis `j` if the three products were
accumulated at full width and truncated once (the multiply-accumulate
reading of the spec), for comparison with what the code computes. -/
def camera_full_width (matrix : MATRIX) (p : POINT) (j : Fin 3) : Int :=
  wrap32 (matrix 3 j +
    wrap32 ((matrix 0 j * p X + matrix 1 j * p Y + matrix 2 j * p Z) / 65536))

/-- The staging of one record by `sega3d_cmdt_prepare`, as a single update:
control, link, draw mode, colour, texture address and size, gouraud address. -/
def prepare_cmdt (tl : tlist) (attr : ATTR) (c : vdp1_cmdt_t) : vdp1_cmdt_t :=
  { c with
    cmd_ctrl := attr.dir, cmd_link := 0, cmd_pmod := attr.atrb, cmd_colr := attr.colno,
    cmd_srca := (tl.tex_get attr.texno).CGadr, cmd_size := (tl.tex_get attr.texno).HVsize,
    cmd_grda := attr.gstb }

/-- The staged record of polygon `i` after `sega3d_cmdt_prepare` and the
polygon loop of `sega3d_cmdt_transform`: the attributes of the polygon and
the screen coordinates of its four projected vertices. -/
def staged_record (tl : tlist) (pdata : PDATA) (distance : Int) (matrix : MATRIX)
    (i : Nat) : vdp1_cmdt_t :=
  { cmd_ctrl := (pdata.attbl i).dir,
    cmd_link := 0,
    cmd_pmod := (pdata.attbl i).atrb,
    cmd_colr := (pdata.attbl i).colno,
    cmd_srca := (tl.tex_get (pdata.attbl i).texno).CGadr,
    cmd_size := (tl.tex_get (pdata.attbl i).texno).HVsize,
    cmd_xa := (mesh_vertex distance matrix pdata i 0).proj_2d.x,
    cmd_ya := (mesh_vertex distance matrix pdata i 0).proj_2d.y,
    cmd_xb := (mesh_vertex distance matrix pdata i 1).proj_2d.x,
    cmd_yb := (mesh_vertex distance matrix pdata i 1).proj_2d.y,
    cmd_xc := (mesh_vertex distance matrix pdata i 2).proj_2d.x,
    cmd_yc := (mesh_vertex distance matrix pdata i 2).proj_2d.y,
    cmd_xd := (mesh_vertex distance matrix pdata i 3).proj_2d.x,
    cmd_yd := (mesh_vertex distance matrix pdata i 3).proj_2d.y,
    cmd_grda := (pdata.attbl i).gstb }

/-- The sort as `sega3d_cmdt_transform` leaves it before the traversal: cleared,
then the staged records 0, 1, ... inserted in turn, each with its depth. -/
def sort_before_iterate {S : Type} (ops : sort_ops S) (pdata : PDATA) (w : world S) : S :=
  (List.range pdata.nbPolygon).foldl
    (fun s i => ops.add s (cmdt_ptr.copy i)
      (sort_depth (polygon_z_avg w.distance (matrix_terms_get w.matrix_top) pdata i)))
    (ops.clear w.sort)

/-- The call `sega3d_cmdt_prepare` followed, when it returns, by
`sega3d_cmdt_transform` on the same mesh. -/
def prepare_then_transform {S : Type} (debug : Bool) (tl : tlist) (ops : sort_ops S)
    (pdata : PDATA) (cmdts : Nat) (offset : Nat) (w : world S) :
    Except (world S) (world S) :=
  match sega3d_cmdt_prepare debug tl pdata cmdts offset w with
  | Except.error e => Except.error e
  | Except.ok w1 => Except.ok (sega3d_cmdt_transform ops pdata w1)

/-- An outcome of the staging with the sort of its world replaced by `s`. -/
def with_sort {S : Type} (s : S) :
    Except (world S) (world S) → Except (world S) (world S)
  | Except.error e => Except.error { e with sort := s }
  | Except.ok x => Except.ok { x with sort := s }

/-- The texture number of polygon `i` fails the `DEBUG` assertion of
`sega3d_cmdt_prepare`: it is non-zero and not less than the texture count. -/
def texno_bad (tl : tlist) (pdata : PDATA) (i : Nat) : Prop :=
  (pdata.attbl i).texno ≠ 0 ∧ ¬ (pdata.attbl i).texno < tl.count

/-! ## Sample data -/

/-- Modelled from the spec: a depth-bucket sort as an instance of the sort
interface (its code is not among the sources). `clear` empties every bucket,
`add` clamps the depth to 0..255 and prepends to that bucket, `iterate` walks
the buckets in ascending index order. -/
def bucket_sort : sort_ops (Nat → List cmdt_ptr) :=
  { clear := fun _ _ => [],
    add := fun s p pz => store s (Int.toNat (max 0 (min 255 pz))) (p :: s (Int.toNat (max 0 (min 255 pz)))),
    iterate := fun s => ((List.range 256).flatMap s, s) }

/-- A command record with every field zero. -/
def cmdt_zero : vdp1_cmdt_t :=
  { cmd_ctrl := 0, cmd_link := 0, cmd_pmod := 0, cmd_colr := 0, cmd_srca := 0, cmd_size := 0,
    cmd_xa := 0, cmd_ya := 0, cmd_xb := 0, cmd_yb := 0, cmd_xc := 0, cmd_yc := 0,
    cmd_xd := 0, cmd_yd := 0, cmd_grda := 0 }

/-- The 4x3 identity: unit 3x3 block and zero translation row. -/
def matrix_identity : MATRIX := fun i j => if i.val = j.val then FIX16_ONE else FIX16_ZERO

/-- A sample point table: two quads at object-space Z = 1.0. -/
def sample_points (k : Nat) : POINT :=
  match k with
  | 0 => fun a => match a with
    | 0 => -65536
    | 1 => -65536
    | 2 => 65536
  | 1 => fun a => match a with
    | 0 => 65536
    | 1 => -65536
    | 2 => 65536
  | 2 => fun a => match a with
    | 0 => 65536
    | 1 => 65536
    | 2 => 65536
  | 3 => fun a => match a with
    | 0 => -65536
    | 1 => 65536
    | 2 => 65536
  | _ => fun a => match a with
    | 0 => 3 * 65536 + 32768
    | 1 => -(5 * 65536) - 1
    | 2 => 65536

/-- A sample mesh of two quads: polygon 0 on points 0..3, polygon 1 on points 4..7. -/
def sample_pdata : PDATA :=
  { pntbl := sample_points,
    nbPolygon := 2,
    pltbl := fun i => { Vertices := fun v => 4 * i + v.val },
    attbl := fun i => { texno := 0, atrb := 192, colno := i, gstb := 0, dir := 4 } }

/-- A sample texture list with no textures: every lookup yields the zeroed
default descriptor. -/
def sample_tlist : tlist :=
  { tex_get := fun _ => { Hsize := 0, Vsize := 0, CGadr := 0, HVsize := 0 }, count := 0 }

/-- A sample pipeline state after `sega3d_init`: projection distance 2.0, a
staging list of PACKET_SIZE records, identity matrix on top of the stack,
zeroed tables, and stale values in the sort and output count. -/
def sample_world : world (Nat → List cmdt_ptr) :=
  { initialized := true,
    distance := 131072,
    transform_cmdts := 7,
    transform_count := 9,
    copy_cmdts := fun _ => cmdt_zero,
    copy_capacity := some PACKET_SIZE,
    staging_fault := false,
    cmdts := fun _ => cmdt_zero,
    sort := fun _ => [cmdt_ptr.copy 5],
    divu := divu_idle,
    matrix_top := matrix_identity,
    tex_lookups := [] }

/-! ## Sample vector helpers and tables -/

/-- Newton iteration for the integer square root of `n` from the estimate `x`,
with a bound on the number of steps. -/
def isqrt_iter : Nat → Nat → Nat → Nat
  | 0, _, x => x
  | fuel + 1, n, x =>
    if (x + n / x) / 2 < x then isqrt_iter fuel n ((x + n / x) / 2) else x

/-- The integer square root (enough steps for arguments below 2^128). -/
def isqrt (n : Nat) : Nat := if n = 0 then 0 else isqrt_iter 128 n n

/-- A sample `fix16_vec3_sub`: the component-wise wrapping difference. -/
def sample_vec3_sub (a b : fix16_vec3_t) : fix16_vec3_t :=
  { x := sub32 a.x b.x, y := sub32 a.y b.y, z := sub32 a.z b.z }

/-- A sample `fix16_vec3_cross`: the cross product on fixed-point products. -/
def sample_vec3_cross (a b : fix16_vec3_t) : fix16_vec3_t :=
  { x := sub32 (fix16_mul a.y b.z) (fix16_mul a.z b.y),
    y := sub32 (fix16_mul a.z b.x) (fix16_mul a.x b.z),
    z := sub32 (fix16_mul a.x b.y) (fix16_mul a.y b.x) }

/-- A sample `fix16_vec3_normalize`: every component divided, as a Q16.16
quotient, by the length (the integer square root of the sum of the squared
components); the zero vector is left as it is. -/
def sample_vec3_normalize (v : fix16_vec3_t) : fix16_vec3_t :=
  let len : Int := isqrt (Int.toNat (v.x * v.x + v.y * v.y + v.z * v.z))
  if len = 0 then v
  else
    { x := divu_fix16_quotient v.x len,
      y := divu_fix16_quotient v.y len,
      z := divu_fix16_quotient v.z len }

/-- The sample vector helpers as one instance of the helper interface. -/
def sample_vec3_ops : vec3_ops :=
  { sub := sample_vec3_sub, cross := sample_vec3_cross, normalize := sample_vec3_normalize }

/-- A sample sine/cosine table: angle 0 gives (0, 1.0), the angle 16384 (a
quarter turn) gives (1.0, 0), any other angle an eighth turn. -/
def sample_sincos (angle : Int) : Int × Int :=
  if angle = 0 then (0, 65536)
  else if angle = 16384 then (65536, 0)
  else (46341, 46341)

/-- A matrix with every component zero. -/
def mat33_zero : fix16_mat33_t :=
  { m00 := 0, m01 := 0, m02 := 0, m10 := 0, m11 := 0, m12 := 0, m20 := 0, m21 := 0, m22 := 0 }

/-- The identity matrix, as `fix16_mat33_identity` writes it. -/
def mat33_identity : fix16_mat33_t := fix16_mat33_identity mat33_zero

/-- The transpose of a matrix, as `fix16_mat33_transpose` writes it. -/
def mat33_transpose (m : fix16_mat33_t) : fix16_mat33_t := fix16_mat33_transpose m mat33_zero

/-- A memory of matrices holding `a` at address 0, `b` at address 1 and `r`
everywhere else. -/
def mat33_mem (a b r : fix16_mat33_t) (p : Nat) : fix16_mat33_t :=
  match p with
  | 0 => a
  | 1 => b
  | _ => r

/-- The matrix `fix16_mat33_mul(&a, &b, &result)` leaves in a result matrix
distinct from both operands, the result holding `r` before the call. -/
def mat33_mul_value (dot : fix16_vec3_t → fix16_vec3_t → Int) (a b r : fix16_mat33_t) :
    fix16_mat33_t :=
  fix16_mat33_mul dot (mat33_mem a b r) 0 1 2 2

/-- Every component of the matrix is in the signed 32-bit range. -/
def mat33_InInt32 (m : fix16_mat33_t) : Prop :=
  InInt32 m.m00 ∧ InInt32 m.m01 ∧ InInt32 m.m02 ∧ InInt32 m.m10 ∧ InInt32 m.m11 ∧
  InInt32 m.m12 ∧ InInt32 m.m20 ∧ InInt32 m.m21 ∧ InInt32 m.m22

/-- Every component of the vector is in the signed 32-bit range. -/
def vec3_InInt32 (v : fix16_vec3_t) : Prop := InInt32 v.x ∧ InInt32 v.y ∧ InInt32 v.z

/-- A sample mesh of one polygon whose texture number, 5, is out of range for
the empty sample texture list. -/
def sample_pdata_bad_texture : PDATA :=
  { pntbl := sample_points,
    nbPolygon := 1,
    pltbl := fun i => { Vertices := fun v => 4 * i + v.val },
    attbl := fun _ => { texno := 5, atrb := 192, colno := 0, gstb := 0, dir := 4 } }

/-- A sample collaborator set for `sega3d_init`: projection distance 2.0, an
allocator that counts the lists it has handed out (each zeroed), and a matrix
initialisation that leaves the identity on top of the stack. -/
def sample_init_env : init_env Nat :=
  { PROJECTION_DISTANCE := 131072,
    vdp1_cmdt_list_alloc := fun n _ => (some (fun _ => cmdt_zero), n + 1),
    matrix_init := fun _ => matrix_identity }

/-- A sample state before the first `sega3d_init`: nothing initialized, no
list allocated yet. -/
def sample_system : system (Nat → List cmdt_ptr) Nat :=
  { w := { sample_world with initialized := false, distance := 0, copy_capacity := none },
    heap := 0 }

/-- A sample dot product built from fixed-point products: the three products
`fix16_mul` of matching components, added with 32-bit wraparound. -/
def products_dot (a b : fix16_vec3_t) : Int :=
  add32 (add32 (fix16_mul a.x b.x) (fix16_mul a.y b.y)) (fix16_mul a.z b.z)

/-- The dot product takes a unit vector (FIX16_ONE in one place, zero in the
two others) and a vector in range to the matching component of that vector,
on either side: what a product with FIX16_ONE returning the other factor and
a product with zero returning zero make of a dot product. -/
def dot_unit_law (dot : fix16_vec3_t → fix16_vec3_t → Int) : Prop :=
  ∀ v : fix16_vec3_t, vec3_InInt32 v →
    dot { x := FIX16_ONE, y := FIX16_ZERO, z := FIX16_ZERO } v = v.x ∧
    dot { x := FIX16_ZERO, y := FIX16_ONE, z := FIX16_ZERO } v = v.y ∧
    dot { x := FIX16_ZERO, y := FIX16_ZERO, z := FIX16_ONE } v = v.z ∧
    dot v { x := FIX16_ONE, y := FIX16_ZERO, z := FIX16_ZERO } = v.x ∧
    dot v { x := FIX16_ZERO, y := FIX16_ONE, z := FIX16_ZERO } = v.y ∧
    dot v { x := FIX16_ZERO, y := FIX16_ZERO, z := FIX16_ONE } = v.z

/-- Sample values for the VDP2 constants: the scroll screens numbered 0 to 5
and a bank size of 0x20000. -/
def sample_vdp2_consts : vdp2_consts :=
  { SCRN_NBG0 := 0, SCRN_NBG1 := 1, SCRN_NBG2 := 2, SCRN_NBG3 := 3, SCRN_RBG0 := 4,
    SCRN_RBG1 := 5, VRAM_4SPLIT_BANK_SIZE_4MBIT := 131072 }

/-- A sample `SCRN_PND_CONFIG_0`: the character address in 32-byte cells. -/
def sample_pnd_config (cp : Nat) (_pal : Nat) : Nat := cp >>> 5

/-- The console as `_init` leaves it just before its call of `_flush` (line
278): the state is `STATE_BUFFER_DIRTY`; the font transfer is in the queue. -/
def sample_dbgio_world : dbgio_world :=
  { dev := { cp_table := 393216, color_palette := 0, page_pnd := fun _ => 0,
             page_width := 64, pnd_clear := 0, state := STATE_BUFFER_DIRTY },
    dma_queue := [dma_request.font_tables] }

/-! ## Properties -/

/-! ### Machine integers -/

theorem wrap32_of_InInt32 {x : Int} (h : InInt32 x) : wrap32 x = x := by
  unfold InInt32 at h
  unfold wrap32
  omega

theorem wrap32_zero : wrap32 0 = 0 := rfl

theorem wrap32_InInt32 (x : Int) : InInt32 (wrap32 x) := by
  unfold InInt32 wrap32
  omega

theorem wrap32_add_wrap32_left (a b : Int) : wrap32 (wrap32 a + b) = wrap32 (a + b) := by
  unfold wrap32
  omega

theorem asr16_eq_div (x : Int) : asr16 x = x / 65536 := by
  unfold asr16
  show x >>> (16 : Nat) = x / 65536
  rw [Int.shiftRight_eq_div_pow]
  norm_num

theorem floor_div_eq (x : Int) (d : Nat) : ⌊(x : ℚ) / (d : ℚ)⌋ = x / (d : Int) :=
  Rat.floor_intCast_div_natCast x d

theorem screen_coord_eq {v : Int} (hv : InInt32 v) : screen_coord v = v / 65536 := by
  unfold InInt32 at hv
  unfold screen_coord wrap16
  rw [asr16_eq_div]
  omega

theorem fix16_mul_InInt32 (a b : Int) : InInt32 (fix16_mul a b) :=
  wrap32_InInt32 _

/-! ### One vertex -/

/-- The outcome of the vertex body does not depend on the division unit it
finds, except that the history is extended by one request and one fetch. -/
theorem transform_vertex_eq (distance : Int) (t : matrix_terms) (point : POINT)
    (divu : cpu_divu) :
    (transform_vertex distance t point divu).1
        = (transform_vertex distance t point divu_idle).1 ∧
    (transform_vertex distance t point divu).2.ops
        = divu.ops ++ [divu_op.request distance
            (transform_vertex distance t point divu_idle).1.divisor, divu_op.fetch] := by
  constructor
  · rfl
  · simp [transform_vertex, cpu_divu_quotient_get, cpu_divu_fix16_set]

/-- C2: the camera-space coordinate on axis j computed for a point p under the
matrix M is M[3][j] + fix16_mul(M[0][j], px) + fix16_mul(M[1][j], py) +
fix16_mul(M[2][j], pz) reduced to 32 bits (row vector times the 3x3 block plus
the translation row); each product is truncated on its own, which differs
from one truncation of the full-width sum. -/
theorem camera_space_row_vector :
    (∀ (distance : Int) (M : MATRIX) (p : POINT) (divu : cpu_divu) (j : Fin 3),
      (transform_vertex distance (matrix_terms_get M) p divu).1.camera j
        = wrap32 (M 3 j + fix16_mul (M 0 j) (p X) + fix16_mul (M 1 j) (p Y)
            + fix16_mul (M 2 j) (p Z))) ∧
    (∃ (M : MATRIX) (p : POINT) (j : Fin 3),
      (transform_vertex 0 (matrix_terms_get M) p divu_idle).1.camera j
        ≠ camera_full_width M p j) := by
  constructor
  · intro distance M p divu j
    fin_cases j <;>
      simp only [transform_vertex, matrix_terms_get, add32, wrap32_add_wrap32_left] <;> rfl
  · refine ⟨fun _ _ => 1, fun _ => 32768, 0, ?_⟩
    decide

/-- C5: the screen coordinate stored for a projected coordinate v in the
signed 32-bit range is floor(v / 65536), it lies in -32768..32767, and the
coordinates stored for a vertex are those of its projected X and Y, which are
always in the signed 32-bit range. -/
theorem screen_coord_floor (v : Int) (hv : InInt32 v) :
    screen_coord v = ⌊(v : ℚ) / 65536⌋ ∧
    -32768 ≤ screen_coord v ∧ screen_coord v ≤ 32767 ∧
    (∀ (distance : Int) (t : matrix_terms) (point : POINT) (divu : cpu_divu),
      (transform_vertex distance t point divu).1.proj_2d.x
          = screen_coord ((transform_vertex distance t point divu).1.proj X) ∧
      (transform_vertex distance t point divu).1.proj_2d.y
          = screen_coord ((transform_vertex distance t point divu).1.proj Y) ∧
      InInt32 ((transform_vertex distance t point divu).1.proj X) ∧
      InInt32 ((transform_vertex distance t point divu).1.proj Y)) := by
  have h := screen_coord_eq hv
  have hf : ⌊(v : ℚ) / 65536⌋ = v / 65536 := by
    have := floor_div_eq v 65536
    simpa using this
  refine ⟨by rw [hf, h], ?_, ?_, ?_⟩
  · rw [h]; unfold InInt32 at hv; omega
  · rw [h]; unfold InInt32 at hv; omega
  · intro distance t point divu
    exact ⟨rfl, rfl, fix16_mul_InInt32 _ _, fix16_mul_InInt32 _ _⟩

theorem screen_coord_floor_witness :
    InInt32 (-1) ∧ screen_coord (-1) = ⌊((-1 : Int) : ℚ) / 65536⌋ :=
  ⟨by decide, (screen_coord_floor (-1) (by decide)).1⟩

/-! ### One polygon -/

theorem vertex_loop_cmdt (distance : Int) (t : matrix_terms) (pdata : PDATA) (i : Nat)
    (c : vdp1_cmdt_t) (divu : cpu_divu) :
    (vertex_loop distance t pdata.pntbl (pdata.pltbl i) c divu).cmdt
      = polygon_cmdt distance t pdata i c := rfl

theorem vertex_loop_z_avg (distance : Int) (t : matrix_terms) (pdata : PDATA) (i : Nat)
    (c : vdp1_cmdt_t) (divu : cpu_divu) :
    (vertex_loop distance t pdata.pntbl (pdata.pltbl i) c divu).z_avg
      = polygon_z_avg distance t pdata i := rfl

theorem vertex_loop_ops (distance : Int) (t : matrix_terms) (pdata : PDATA) (i : Nat)
    (c : vdp1_cmdt_t) (divu : cpu_divu) :
    (vertex_loop distance t pdata.pntbl (pdata.pltbl i) c divu).divu.ops
      = divu.ops ++ polygon_ops distance t pdata i := by
  simp [vertex_loop, vertex_step, polygon_ops, polygon_vertex, transform_vertex,
    cpu_divu_quotient_get, cpu_divu_fix16_set]

/-- The polygon loop, field by field. -/
theorem polygon_loop_spec {S : Type} (ops : sort_ops S) (t : matrix_terms) (pdata : PDATA)
    (n : Nat) (w : world S) :
    ((List.range n).foldl (polygon_step ops t pdata) w).distance = w.distance ∧
    ((List.range n).foldl (polygon_step ops t pdata) w).matrix_top = w.matrix_top ∧
    ((List.range n).foldl (polygon_step ops t pdata) w).cmdts = w.cmdts ∧
    ((List.range n).foldl (polygon_step ops t pdata) w).transform_cmdts = w.transform_cmdts ∧
    ((List.range n).foldl (polygon_step ops t pdata) w).divu.ops
      = w.divu.ops ++ (List.range n).flatMap (polygon_ops w.distance t pdata) ∧
    ((List.range n).foldl (polygon_step ops t pdata) w).sort
      = (List.range n).foldl (fun s i => ops.add s (cmdt_ptr.copy i)
          (sort_depth (polygon_z_avg w.distance t pdata i))) w.sort ∧
    (∀ j, ((List.range n).foldl (polygon_step ops t pdata) w).copy_cmdts j
      = if j < n then polygon_cmdt w.distance t pdata j (w.copy_cmdts j)
        else w.copy_cmdts j) := by
  induction n with
  | zero => simp
  | succ n ih =>
    obtain ⟨h1, h2, h3, h4, h5, h6, h7⟩ := ih
    simp only [List.range_succ, List.foldl_append, List.foldl_cons, List.foldl_nil,
      List.flatMap_append, List.flatMap_cons, List.flatMap_nil, List.append_nil]
    refine ⟨?_, ?_, ?_, ?_, ?_, ?_, ?_⟩
    · simpa [polygon_step] using h1
    · simpa [polygon_step] using h2
    · simpa [polygon_step] using h3
    · simpa [polygon_step] using h4
    · simp only [polygon_step, vertex_loop_ops, h1, h5, List.append_assoc]
    · simp only [polygon_step, vertex_loop_z_avg, h1, h6]
    · intro j
      simp only [polygon_step, vertex_loop_cmdt, h1, store]
      by_cases hj : j = n
      · subst hj
        simp [h7]
      · rw [if_neg hj, h7 j]
        by_cases hlt : j < n
        · have : j < n + 1 := by omega
          simp [hlt, this]
        · have : ¬ j < n + 1 := by omega
          simp [hlt, this]

/-! ### The visit callback and the traversal -/

/-- The traversal over staged records: what a run of the callback over the
packets `copy i` for `i` in `order` leaves behind. -/
theorem sort_iterate_fold {S : Type} (order : List Nat) (w : world S) :
    (order.foldl (fun w i => _sort_iterate w (cmdt_ptr.copy i)) w).transform_count
      = w.transform_count + order.length ∧
    (order.foldl (fun w i => _sort_iterate w (cmdt_ptr.copy i)) w).divu = w.divu ∧
    (order.foldl (fun w i => _sort_iterate w (cmdt_ptr.copy i)) w).copy_cmdts = w.copy_cmdts ∧
    (order.foldl (fun w i => _sort_iterate w (cmdt_ptr.copy i)) w).transform_cmdts
      = w.transform_cmdts ∧
    (∀ a, (order.foldl (fun w i => _sort_iterate w (cmdt_ptr.copy i)) w).cmdts a
      = if h : w.transform_cmdts + w.transform_count ≤ a ∧
            a - (w.transform_cmdts + w.transform_count) < order.length
        then w.copy_cmdts (order.get ⟨a - (w.transform_cmdts + w.transform_count), h.2⟩)
        else w.cmdts a) := by
  induction order generalizing w with
  | nil => simp
  | cons i rest ih =>
    obtain ⟨h1, h2, h3, h4, h5⟩ := ih (_sort_iterate w (cmdt_ptr.copy i))
    simp only [List.foldl_cons]
    refine ⟨?_, ?_, ?_, ?_, ?_⟩
    · rw [h1]; simp [_sort_iterate]; omega
    · rw [h2]; rfl
    · rw [h3]; rfl
    · rw [h4]; rfl
    · intro a
      rw [h5 a]
      simp only [_sort_iterate, world.deref, store, List.length_cons]
      by_cases ha : a = w.transform_cmdts + w.transform_count
      · subst ha
        simp
      · by_cases hlo : w.transform_cmdts + (w.transform_count + 1) ≤ a ∧
            a - (w.transform_cmdts + (w.transform_count + 1)) < rest.length
        · have hlo2 : w.transform_cmdts + w.transform_count ≤ a ∧
              a - (w.transform_cmdts + w.transform_count) < rest.length + 1 := by omega
          rw [dif_pos hlo, dif_pos hlo2]
          have e : a - (w.transform_cmdts + w.transform_count)
              = (a - (w.transform_cmdts + (w.transform_count + 1))) + 1 := by omega
          simp only [List.get_eq_getElem]
          congr 1
          simp only [e, List.getElem_cons_succ]
        · have hlo2 : ¬ (w.transform_cmdts + w.transform_count ≤ a ∧
              a - (w.transform_cmdts + w.transform_count) < rest.length + 1) := by omega
          rw [dif_neg hlo, dif_neg hlo2, if_neg ha]

theorem sort_iterate_foldl_divu {S : Type} (packets : List cmdt_ptr) (w : world S) :
    (packets.foldl _sort_iterate w).divu = w.divu := by
  induction packets generalizing w with
  | nil => rfl
  | cons p rest ih => simp only [List.foldl_cons]; rw [ih]; rfl

/-! ### The division unit during a transform -/

/-- The accesses `sega3d_cmdt_transform` appends to the history of the
division unit: those of polygon 0, then polygon 1, and so on. -/
theorem transform_divu_ops {S : Type} (ops : sort_ops S) (pdata : PDATA) (w : world S) :
    (sega3d_cmdt_transform ops pdata w).divu.ops
      = w.divu.ops ++ (List.range pdata.nbPolygon).flatMap
          (polygon_ops w.distance (matrix_terms_get w.matrix_top) pdata) := by
  unfold sega3d_cmdt_transform _internal_sort_iterate
  simp only [sort_iterate_foldl_divu]
  exact (polygon_loop_spec ops (matrix_terms_get w.matrix_top) pdata pdata.nbPolygon
    { w with sort := ops.clear w.sort }).2.2.2.2.1

theorem camera_InInt32 (distance : Int) (t : matrix_terms) (point : POINT)
    (divu : cpu_divu) (j : Fin 3) :
    InInt32 ((transform_vertex distance t point divu).1.camera j) := by
  fin_cases j <;> exact wrap32_InInt32 _

theorem wrap32_sub_eq_zero {d z : Int} (hd : InInt32 d) (hz : InInt32 z) :
    wrap32 (d - z) = 0 ↔ z = d := by
  unfold InInt32 at hd hz
  unfold wrap32
  omega

theorem divu_paired_replicate (k : Nat) :
    divu_paired false (List.replicate k [divu_kind.req, divu_kind.get]).flatten = true := by
  induction k with
  | zero => rfl
  | succ k ih =>
    simp only [List.replicate_succ, List.flatten_cons, List.cons_append, List.nil_append,
      divu_paired]
    exact ih

theorem polygon_ops_kinds (n : Nat) (distance : Int) (t : matrix_terms) (pdata : PDATA) :
    ((List.range n).flatMap (polygon_ops distance t pdata)).map divu_op.kind
      = (List.replicate (4 * n) [divu_kind.req, divu_kind.get]).flatten := by
  induction n with
  | zero => rfl
  | succ n ih =>
    have e : 4 * (n + 1) = 4 * n + 4 := by ring
    rw [List.range_succ, List.flatMap_append, List.map_append, ih, e, List.replicate_add,
      List.flatten_append]
    rfl

/-- C3: every request `sega3d_cmdt_transform` makes to the division unit has
the stored projection distance as dividend and, as divisor, the distance
minus the camera-space Z of the vertex reduced to 32 bits; that divisor is
zero exactly when the camera-space Z equals the distance. -/
theorem divisor_is_distance_minus_camera_z {S : Type} (ops : sort_ops S) (pdata : PDATA)
    (w : world S) (hd : InInt32 w.distance) :
    (sega3d_cmdt_transform ops pdata w).divu.ops
      = w.divu.ops ++ (List.range pdata.nbPolygon).flatMap (fun i =>
          ([0, 1, 2, 3] : List (Fin 4)).flatMap fun v =>
            [divu_op.request w.distance
               (wrap32 (w.distance - (mesh_vertex w.distance w.matrix_top pdata i v).camera Z)),
             divu_op.fetch]) ∧
    (∀ (i : Nat) (v : Fin 4),
      (mesh_vertex w.distance w.matrix_top pdata i v).divisor
        = wrap32 (w.distance - (mesh_vertex w.distance w.matrix_top pdata i v).camera Z) ∧
      ((mesh_vertex w.distance w.matrix_top pdata i v).divisor = 0 ↔
        (mesh_vertex w.distance w.matrix_top pdata i v).camera Z = w.distance)) := by
  constructor
  · rw [transform_divu_ops]
    rfl
  · intro i v
    refine ⟨rfl, ?_⟩
    exact wrap32_sub_eq_zero hd (camera_InInt32 w.distance (matrix_terms_get w.matrix_top)
      (pdata.pntbl ((pdata.pltbl i).Vertices v)) divu_idle Z)

/-- C4: the accesses `sega3d_cmdt_transform` makes to the division unit on a
mesh of n polygons are 4*n repetitions of a request followed by a fetch, so
the request/fetch discipline is respected throughout. -/
theorem divu_request_fetch_pairing {S : Type} (ops : sort_ops S) (pdata : PDATA)
    (w : world S) :
    ∃ performed : List divu_op,
      (sega3d_cmdt_transform ops pdata w).divu.ops = w.divu.ops ++ performed ∧
      performed.map divu_op.kind
        = (List.replicate (4 * pdata.nbPolygon) [divu_kind.req, divu_kind.get]).flatten ∧
      divu_paired false (performed.map divu_op.kind) = true := by
  refine ⟨_, transform_divu_ops ops pdata w, polygon_ops_kinds _ _ _ _, ?_⟩
  rw [polygon_ops_kinds]
  exact divu_paired_replicate _

/-! ### The depth handed to the sort -/

theorem polygon_z_avg_eq (distance : Int) (t : matrix_terms) (pdata : PDATA) (i : Nat) :
    polygon_z_avg distance t pdata i = wrap32 (polygon_depth_sum distance t pdata i) := by
  simp only [polygon_z_avg, polygon_depth_sum, List.foldl_cons, List.foldl_nil, add32,
    wrap32_add_wrap32_left, zero_add]

theorem sort_depth_eq {s : Int} (hs : InInt32 s) : sort_depth s = s / 262144 := by
  unfold InInt32 at hs
  unfold sort_depth fix16_mul toFIXED_quarter wrap32
  rw [asr16_eq_div]
  omega

/-- C6: when the exact sum S of the four projected depths of a polygon is in
the signed 32-bit range, the polygon loop hands the sort the polygon's staged
record together with floor(S / 2^18), which is floor(floor(S / 4) / 65536);
the sum is over the four vertices of the polygon. -/
theorem sort_depth_is_average {S : Type} (ops : sort_ops S) (t : matrix_terms)
    (pdata : PDATA) (w : world S) (i : Nat)
    (hS : InInt32 (polygon_depth_sum w.distance t pdata i)) :
    (polygon_step ops t pdata w i).sort
      = ops.add w.sort (cmdt_ptr.copy i)
          ⌊((polygon_depth_sum w.distance t pdata i : Int) : ℚ) / 262144⌋ ∧
    ⌊((polygon_depth_sum w.distance t pdata i : Int) : ℚ) / 262144⌋
      = ⌊((⌊((polygon_depth_sum w.distance t pdata i : Int) : ℚ) / 4⌋ : Int) : ℚ) / 65536⌋ := by
  have h1 : ⌊((polygon_depth_sum w.distance t pdata i : Int) : ℚ) / 262144⌋
      = polygon_depth_sum w.distance t pdata i / 262144 := by
    simpa using floor_div_eq (polygon_depth_sum w.distance t pdata i) 262144
  have h2 : ⌊((polygon_depth_sum w.distance t pdata i : Int) : ℚ) / 4⌋
      = polygon_depth_sum w.distance t pdata i / 4 := by
    simpa using floor_div_eq (polygon_depth_sum w.distance t pdata i) 4
  have h3 : ⌊((polygon_depth_sum w.distance t pdata i / 4 : Int) : ℚ) / 65536⌋
      = polygon_depth_sum w.distance t pdata i / 4 / 65536 := by
    simpa using floor_div_eq (polygon_depth_sum w.distance t pdata i / 4) 65536
  constructor
  · rw [h1]
    show ops.add w.sort (cmdt_ptr.copy i)
        (sort_depth (vertex_loop w.distance t pdata.pntbl (pdata.pltbl i) (w.copy_cmdts i)
          w.divu).z_avg) = _
    rw [vertex_loop_z_avg, polygon_z_avg_eq, wrap32_of_InInt32 hS, sort_depth_eq hS]
  · rw [h1, h2, h3]
    omega

/-- C7: one call of the visit callback copies the record its packet refers to
into the output slot at the current count, advances the count by one, and
changes no other output slot and no staged record; the referenced record
reads the same afterwards. -/
theorem sort_iterate_appends {S : Type} (w : world S) (packet : cmdt_ptr) :
    (_sort_iterate w packet).transform_count = w.transform_count + 1 ∧
    (∀ a, (_sort_iterate w packet).cmdts a
      = if a = w.transform_cmdts + w.transform_count then w.deref packet else w.cmdts a) ∧
    (_sort_iterate w packet).copy_cmdts = w.copy_cmdts ∧
    (_sort_iterate w packet).transform_cmdts = w.transform_cmdts ∧
    (_sort_iterate w packet).deref packet = w.deref packet := by
  refine ⟨rfl, fun a => rfl, rfl, rfl, ?_⟩
  cases packet with
  | copy i => rfl
  | list a =>
    simp only [_sort_iterate, world.deref, store]
    split <;> simp_all

/-! ### Staging -/

theorem store_store {α : Type} (m : Nat → α) (i : Nat) (x y : α) :
    store (store m i x) i y = store m i y := by
  funext j
  simp only [store]
  split <;> rfl

theorem prepare_step_ok {S : Type} (debug : Bool) (tl : tlist) (pdata : PDATA)
    (w : world S) (i : Nat)
    (h : debug = true → (pdata.attbl i).texno = 0 ∨ (pdata.attbl i).texno < tl.count) :
    prepare_step debug tl pdata w i
      = Except.ok { w with
          tex_lookups := w.tex_lookups ++ [(pdata.attbl i).texno],
          staging_fault := w.staging_fault || !(w.staging_index_ok i),
          copy_cmdts := store w.copy_cmdts i
            (prepare_cmdt tl (pdata.attbl i) (w.copy_cmdts i)) } := by
  unfold prepare_step
  have hc : (debug && ((pdata.attbl i).texno != 0 &&
      !(decide ((pdata.attbl i).texno < tl.count)))) = false := by
    cases debug with
    | false => rfl
    | true =>
      rcases h rfl with h0 | h1
      · simp [h0]
      · simp [h1]
  simp only [hc, Bool.false_eq_true, if_false, store_store]
  rfl

/-- The staging loop over a list of indices, field by field, when no texture
assertion fails. -/
theorem prepare_loop_ok {S : Type} (debug : Bool) (tl : tlist) (pdata : PDATA)
    (l : List Nat) (w : world S)
    (h : ∀ i ∈ l, debug = true →
      (pdata.attbl i).texno = 0 ∨ (pdata.attbl i).texno < tl.count) :
    ∃ w1, prepare_loop debug tl pdata l w = Except.ok w1 ∧
      w1.distance = w.distance ∧ w1.matrix_top = w.matrix_top ∧ w1.cmdts = w.cmdts ∧
      w1.transform_cmdts = w.transform_cmdts ∧ w1.transform_count = w.transform_count ∧
      w1.sort = w.sort ∧ w1.divu = w.divu ∧
      (∀ j, w1.copy_cmdts j
        = if j ∈ l then prepare_cmdt tl (pdata.attbl j) (w.copy_cmdts j)
          else w.copy_cmdts j) := by
  induction l generalizing w with
  | nil => exact ⟨w, rfl, rfl, rfl, rfl, rfl, rfl, rfl, rfl, fun j => by simp⟩
  | cons i rest ih =>
    have hi := prepare_step_ok debug tl pdata w i (h i (List.mem_cons_self i rest))
    obtain ⟨w1, e, h1, h2, h3, h4, h5, h6, h7, h8⟩ :=
      ih { w with
          tex_lookups := w.tex_lookups ++ [(pdata.attbl i).texno],
          staging_fault := w.staging_fault || !(w.staging_index_ok i),
          copy_cmdts := store w.copy_cmdts i
            (prepare_cmdt tl (pdata.attbl i) (w.copy_cmdts i)) }
        (fun k hk => h k (List.mem_cons_of_mem i hk))
    refine ⟨w1, ?_, h1, h2, h3, h4, h5, h6, h7, ?_⟩
    · simp only [prepare_loop, hi]
      exact e
    · intro j
      rw [h8 j]
      simp only [store, List.mem_cons]
      by_cases hji : j = i
      · subst hji
        by_cases hjr : j ∈ rest
        · simp only [hjr, if_true, true_or]
          rfl
        · simp [hjr]
      · simp [hji]

theorem polygon_cmdt_prepare_cmdt (tl : tlist) (pdata : PDATA) (distance : Int)
    (matrix : MATRIX) (i : Nat) (c : vdp1_cmdt_t) :
    polygon_cmdt distance (matrix_terms_get matrix) pdata i (prepare_cmdt tl (pdata.attbl i) c)
      = staged_record tl pdata distance matrix i := rfl

/-! ### Staging followed by the transform -/

theorem perm_map_copy {L : List cmdt_ptr} {l : List Nat}
    (h : L.Perm (l.map cmdt_ptr.copy)) :
    ∃ order : List Nat, L = order.map cmdt_ptr.copy ∧ order.Perm l := by
  let idx : cmdt_ptr → Nat := fun p => match p with
    | cmdt_ptr.copy i => i
    | cmdt_ptr.list a => a
  refine ⟨L.map idx, ?_, ?_⟩
  · rw [List.map_map]
    symm
    conv_rhs => rw [← List.map_id L]
    apply List.map_congr_left
    intro p hp
    have hp2 : p ∈ l.map cmdt_ptr.copy := h.mem_iff.mp hp
    obtain ⟨i, _, rfl⟩ := List.mem_map.mp hp2
    rfl
  · have h2 := h.map idx
    rw [List.map_map] at h2
    have e : l.map (idx ∘ cmdt_ptr.copy) = l := by
      conv_rhs => rw [← List.map_id l]
      apply List.map_congr_left
      intro i _
      rfl
    rw [e] at h2
    exact h2

/-- The transform on a world whose first n staging records have been staged:
the count, the output base, and every output slot, in terms of the order in
which the sort visits the staged records. -/
theorem transform_spec {S : Type} (ops : sort_ops S) (pdata : PDATA) (w : world S)
    (order : List Nat)
    (hvisit : (ops.iterate (sort_before_iterate ops pdata w)).1 = order.map cmdt_ptr.copy) :
    (sega3d_cmdt_transform ops pdata w).transform_count = order.length ∧
    (sega3d_cmdt_transform ops pdata w).transform_cmdts = w.transform_cmdts ∧
    (∀ a, (sega3d_cmdt_transform ops pdata w).cmdts a
      = if h : w.transform_cmdts ≤ a ∧ a - w.transform_cmdts < order.length
        then (if order.get ⟨a - w.transform_cmdts, h.2⟩ < pdata.nbPolygon
          then polygon_cmdt w.distance (matrix_terms_get w.matrix_top) pdata
            (order.get ⟨a - w.transform_cmdts, h.2⟩)
            (w.copy_cmdts (order.get ⟨a - w.transform_cmdts, h.2⟩))
          else w.copy_cmdts (order.get ⟨a - w.transform_cmdts, h.2⟩))
        else w.cmdts a) := by
  obtain ⟨h1, h2, h3, h4, h5, h6, h7⟩ :=
    polygon_loop_spec ops (matrix_terms_get w.matrix_top) pdata pdata.nbPolygon
      { w with sort := ops.clear w.sort }
  have hs : ((List.range pdata.nbPolygon).foldl
      (polygon_step ops (matrix_terms_get w.matrix_top) pdata)
      { w with sort := ops.clear w.sort }).sort = sort_before_iterate ops pdata w := h6
  unfold sega3d_cmdt_transform _internal_sort_iterate
  simp only [hs, hvisit, List.foldl_map]
  obtain ⟨g1, _, g3, g4, g5⟩ := sort_iterate_fold order
    { ((List.range pdata.nbPolygon).foldl
        (polygon_step ops (matrix_terms_get w.matrix_top) pdata)
        { w with sort := ops.clear w.sort }) with
      transform_count := 0
      sort := (ops.iterate (sort_before_iterate ops pdata w)).2 }
  refine ⟨?_, ?_, ?_⟩
  · rw [g1]; simp
  · rw [g4]; exact h4
  · intro a
    rw [g5 a]
    simp only [Nat.add_zero, h4, h3, h7]

/-- The sort content does not influence the staging: staging a world whose
sort has been replaced gives the staged outcome with its sort replaced. -/
theorem prepare_step_sort {S : Type} (debug : Bool) (tl : tlist) (pdata : PDATA)
    (w : world S) (s : S) (i : Nat) :
    prepare_step debug tl pdata { w with sort := s } i
      = with_sort s (prepare_step debug tl pdata w i) := by
  unfold prepare_step
  simp only [Bool.false_eq_true, if_false]
  split <;> rfl

theorem prepare_loop_sort {S : Type} (debug : Bool) (tl : tlist) (pdata : PDATA)
    (l : List Nat) (w : world S) (s : S) :
    prepare_loop debug tl pdata l { w with sort := s }
      = with_sort s (prepare_loop debug tl pdata l w) := by
  induction l generalizing w with
  | nil => rfl
  | cons i rest ih =>
    simp only [prepare_loop, prepare_step_sort]
    cases prepare_step debug tl pdata w i with
    | error e => rfl
    | ok w1 => exact ih w1

/-! ### The bound of the staging list -/

theorem staging_index_ok_of_lt {S : Type} (w : world S) (cap i : Nat)
    (hcap : w.copy_capacity = some cap) (hi : i < cap) :
    w.staging_index_ok i = true := by
  simp [world.staging_index_ok, hcap, hi]

/-- One staging step leaves the length of the staging list alone and raises the
fault exactly when its index is outside the list. -/
theorem prepare_step_staging {S : Type} (debug : Bool) (tl : tlist) (pdata : PDATA)
    (w w1 : world S) (i : Nat) (e : prepare_step debug tl pdata w i = Except.ok w1) :
    w1.copy_capacity = w.copy_capacity ∧
    w1.staging_fault = (w.staging_fault || !(w.staging_index_ok i)) := by
  unfold prepare_step at e
  simp only [Bool.false_eq_true, if_false] at e
  split at e
  · cases e
  · cases e
    exact ⟨rfl, rfl⟩

/-- A staging step at an index outside the staging list, or with the list not
allocated, raises the fault. -/
theorem prepare_step_fault {S : Type} (debug : Bool) (tl : tlist) (pdata : PDATA)
    (w w1 : world S) (i : Nat) (hi : w.staging_index_ok i = false)
    (e : prepare_step debug tl pdata w i = Except.ok w1) :
    w1.staging_fault = true := by
  rw [(prepare_step_staging debug tl pdata w w1 i e).2, hi]
  simp

/-- The staging loop over indices below the length of the staging list raises
no fault. -/
theorem prepare_loop_staging {S : Type} (debug : Bool) (tl : tlist) (pdata : PDATA)
    (cap : Nat) (l : List Nat) (w w1 : world S)
    (hl : ∀ i ∈ l, i < cap) (hcap : w.copy_capacity = some cap)
    (hf : w.staging_fault = false)
    (e : prepare_loop debug tl pdata l w = Except.ok w1) :
    w1.copy_capacity = some cap ∧ w1.staging_fault = false := by
  induction l generalizing w with
  | nil =>
    cases e
    exact ⟨hcap, hf⟩
  | cons i rest ih =>
    simp only [prepare_loop] at e
    cases hs : prepare_step debug tl pdata w i with
    | error x =>
      rw [hs] at e
      cases e
    | ok wi =>
      rw [hs] at e
      obtain ⟨c1, c2⟩ := prepare_step_staging debug tl pdata w wi i hs
      have hok := staging_index_ok_of_lt w cap i hcap (hl i (List.mem_cons_self i rest))
      refine ih wi (fun k hk => hl k (List.mem_cons_of_mem i hk)) (c1.trans hcap) ?_ e
      rw [c2, hf, hok]
      rfl

/-- One step of the polygon loop leaves the length of the staging list alone and
raises the fault exactly when its index is outside the list. -/
theorem polygon_step_staging {S : Type} (ops : sort_ops S) (t : matrix_terms)
    (pdata : PDATA) (w : world S) (i : Nat) :
    (polygon_step ops t pdata w i).copy_capacity = w.copy_capacity ∧
    (polygon_step ops t pdata w i).staging_fault
      = (w.staging_fault || !(w.staging_index_ok i)) :=
  ⟨rfl, rfl⟩

/-- The polygon loop over indices below the length of the staging list raises no
fault. -/
theorem polygon_loop_staging {S : Type} (ops : sort_ops S) (t : matrix_terms)
    (pdata : PDATA) (cap : Nat) (l : List Nat) (w : world S)
    (hl : ∀ i ∈ l, i < cap) (hcap : w.copy_capacity = some cap)
    (hf : w.staging_fault = false) :
    (l.foldl (polygon_step ops t pdata) w).copy_capacity = some cap ∧
    (l.foldl (polygon_step ops t pdata) w).staging_fault = false := by
  induction l generalizing w with
  | nil => exact ⟨hcap, hf⟩
  | cons i rest ih =>
    simp only [List.foldl_cons]
    obtain ⟨c1, c2⟩ := polygon_step_staging ops t pdata w i
    have hok := staging_index_ok_of_lt w cap i hcap (hl i (List.mem_cons_self i rest))
    refine ih (polygon_step ops t pdata w i)
      (fun k hk => hl k (List.mem_cons_of_mem i hk)) (c1.trans hcap) ?_
    rw [c2, hf, hok]
    rfl

theorem sort_iterate_foldl_staging {S : Type} (packets : List cmdt_ptr) (w : world S) :
    (packets.foldl _sort_iterate w).copy_capacity = w.copy_capacity ∧
    (packets.foldl _sort_iterate w).staging_fault = w.staging_fault := by
  induction packets generalizing w with
  | nil => exact ⟨rfl, rfl⟩
  | cons p rest ih =>
    simp only [List.foldl_cons]
    exact ih (_sort_iterate w p)

/-- The transform of a mesh of at most as many polygons as the staging list has
records raises no fault. -/
theorem transform_staging {S : Type} (ops : sort_ops S) (pdata : PDATA) (cap : Nat)
    (w : world S) (hn : pdata.nbPolygon ≤ cap) (hcap : w.copy_capacity = some cap)
    (hf : w.staging_fault = false) :
    (sega3d_cmdt_transform ops pdata w).copy_capacity = some cap ∧
    (sega3d_cmdt_transform ops pdata w).staging_fault = false := by
  obtain ⟨p1, p2⟩ := polygon_loop_staging ops (matrix_terms_get w.matrix_top) pdata cap
    (List.range pdata.nbPolygon) { w with sort := ops.clear w.sort }
    (fun i hi => Nat.lt_of_lt_of_le (List.mem_range.mp hi) hn) hcap hf
  unfold sega3d_cmdt_transform _internal_sort_iterate
  obtain ⟨q1, q2⟩ := sort_iterate_foldl_staging
    (ops.iterate ((List.range pdata.nbPolygon).foldl
      (polygon_step ops (matrix_terms_get w.matrix_top) pdata)
      { w with sort := ops.clear w.sort }).sort).1
    { (List.range pdata.nbPolygon).foldl
        (polygon_step ops (matrix_terms_get w.matrix_top) pdata)
        { w with sort := ops.clear w.sort } with
      transform_count := 0,
      sort := (ops.iterate ((List.range pdata.nbPolygon).foldl
        (polygon_step ops (matrix_terms_get w.matrix_top) pdata)
        { w with sort := ops.clear w.sort }).sort).2 }
  exact ⟨q1.trans p1, q2.trans p2⟩

/-- A first `sega3d_init` that returns leaves a staging list of PACKET_SIZE
records. -/
theorem sega3d_init_capacity {S A : Type} (env : init_env A) (s s1 : system S A)
    (h0 : s.w.initialized = false) (e : sega3d_init env s = Except.ok s1) :
    s1.w.copy_capacity = some PACKET_SIZE := by
  unfold sega3d_init at e
  simp only [h0, Bool.false_eq_true, if_false] at e
  split at e
  · cases e
  · cases e
    rfl

/-- Staging a mesh that has a polygon at or beyond the length of the staging
list, or staging before the list is allocated, raises the fault when the
staging returns. -/
theorem prepare_loop_fault {S : Type} (debug : Bool) (tl : tlist) (pdata : PDATA)
    (l : List Nat) (w w1 : world S) (k : Nat) (hk : k ∈ l)
    (hbad : w.staging_index_ok k = false)
    (e : prepare_loop debug tl pdata l w = Except.ok w1) :
    w1.staging_fault = true := by
  have mono : ∀ (l : List Nat) (w w1 : world S), w.staging_fault = true →
      prepare_loop debug tl pdata l w = Except.ok w1 → w1.staging_fault = true := by
    intro l
    induction l with
    | nil =>
      intro w w1 hf e
      cases e
      exact hf
    | cons i rest ih =>
      intro w w1 hf e
      simp only [prepare_loop] at e
      cases hs : prepare_step debug tl pdata w i with
      | error x =>
        rw [hs] at e
        cases e
      | ok wi =>
        rw [hs] at e
        refine ih wi w1 ?_ e
        rw [(prepare_step_staging debug tl pdata w wi i hs).2, hf]
        rfl
  induction l generalizing w with
  | nil => cases hk
  | cons i rest ih =>
    simp only [prepare_loop] at e
    cases hs : prepare_step debug tl pdata w i with
    | error x =>
      rw [hs] at e
      cases e
    | ok wi =>
      rw [hs] at e
      obtain ⟨c1, c2⟩ := prepare_step_staging debug tl pdata w wi i hs
      rcases List.mem_cons.mp hk with hki | hkr
      · subst hki
        exact mono rest wi w1 (prepare_step_fault debug tl pdata w wi k hbad hs) e
      · refine ih wi hkr ?_ e
        unfold world.staging_index_ok at hbad
        unfold world.staging_index_ok
        rw [c1]
        exact hbad

/-- C1: on a state whose staging list holds the PACKET_SIZE records that
`sega3d_init` allocates, with no staging fault so far, and for a mesh of n
polygons with n at most PACKET_SIZE, when no texture assertion fails and the
sort, cleared and then given the n staged records of this mesh, visits each of
them exactly once, `sega3d_cmdt_prepare` followed by `sega3d_cmdt_transform`
returns without indexing the staging list outside its records, with the output
count n and with output slots 0..n-1 from the prepared offset holding the
staged records in the order the sort visited them, a permutation of the
staged records 0..n-1, each with the screen coordinates of the four projected
vertices of its polygon; slots outside that range are untouched; the outcome
is the same whatever the output count and output base held before, and the
same for any prior sort content that clears to the same sort. -/
theorem prepare_transform_output {S : Type} (debug : Bool) (tl : tlist) (ops : sort_ops S)
    (pdata : PDATA) (cmdts offset : Nat) (w : world S)
    (hcap : w.copy_capacity = some PACKET_SIZE)
    (hfault : w.staging_fault = false)
    (hn : pdata.nbPolygon ≤ PACKET_SIZE)
    (htex : ∀ i, i < pdata.nbPolygon → debug = true →
      (pdata.attbl i).texno = 0 ∨ (pdata.attbl i).texno < tl.count)
    (hsort : (ops.iterate (sort_before_iterate ops pdata w)).1.Perm
      ((List.range pdata.nbPolygon).map cmdt_ptr.copy)) :
    ∃ w2, prepare_then_transform debug tl ops pdata cmdts offset w = Except.ok w2 ∧
      w2.copy_capacity = some PACKET_SIZE ∧
      w2.staging_fault = false ∧
      w2.transform_count = pdata.nbPolygon ∧
      w2.transform_cmdts = cmdts + offset ∧
      (∃ order : List Nat,
        (ops.iterate (sort_before_iterate ops pdata w)).1 = order.map cmdt_ptr.copy ∧
        order.Perm (List.range pdata.nbPolygon) ∧
        (List.range pdata.nbPolygon).map (fun k => w2.cmdts (cmdts + offset + k))
          = order.map (staged_record tl pdata w.distance w.matrix_top)) ∧
      (∀ a, (cmdts + offset ≤ a ∧ a < cmdts + offset + pdata.nbPolygon) ∨
        w2.cmdts a = w.cmdts a) ∧
      (∀ (i : Nat) (v : Fin 4),
        (staged_record tl pdata w.distance w.matrix_top i).vertex v
          = (mesh_vertex w.distance w.matrix_top pdata i v).proj_2d) ∧
      (∀ c a, prepare_then_transform debug tl ops pdata cmdts offset
          { w with transform_count := c, transform_cmdts := a } = Except.ok w2) ∧
      (∀ s, ops.clear s = ops.clear w.sort →
        prepare_then_transform debug tl ops pdata cmdts offset { w with sort := s }
          = Except.ok w2) := by
  obtain ⟨w1, e, h1, h2, h3, h4, h5, h6, _, h8⟩ :=
    prepare_loop_ok debug tl pdata (List.range pdata.nbPolygon)
      { w with transform_cmdts := cmdts + offset, transform_count := 0 }
      (fun i hi => htex i (List.mem_range.mp hi))
  have e1 : sega3d_cmdt_prepare debug tl pdata cmdts offset w = Except.ok w1 := e
  have hsb : sort_before_iterate ops pdata w1 = sort_before_iterate ops pdata w := by
    unfold sort_before_iterate
    rw [h1, h2, h6]
  obtain ⟨order, hvis, hperm⟩ := perm_map_copy hsort
  have hlen : order.length = pdata.nbPolygon := by
    rw [hperm.length_eq, List.length_range]
  obtain ⟨t1, t2, t3⟩ := transform_spec ops pdata w1 order (by rw [hsb]; exact hvis)
  have h4b : w1.transform_cmdts = cmdts + offset := h4
  obtain ⟨c1, c2⟩ := prepare_loop_staging debug tl pdata PACKET_SIZE
    (List.range pdata.nbPolygon)
    { w with transform_cmdts := cmdts + offset, transform_count := 0 } w1
    (fun i hi => Nat.lt_of_lt_of_le (List.mem_range.mp hi) hn) hcap hfault e
  obtain ⟨d1, d2⟩ := transform_staging ops pdata PACKET_SIZE w1 hn c1 c2
  refine ⟨sega3d_cmdt_transform ops pdata w1, ?_, d1, d2, ?_, ?_,
    ⟨order, hvis, hperm, ?_⟩, ?_, ?_, ?_, ?_⟩
  · simp only [prepare_then_transform, e1]
  · rw [t1, hlen]
  · rw [t2, h4b]
  · apply List.ext_getElem
    · simp [hlen]
    · intro k hk1 hk2
      have hk : k < pdata.nbPolygon := by simpa using hk1
      have hko : k < order.length := by rw [hlen]; exact hk
      have hcond : w1.transform_cmdts ≤ cmdts + offset + k ∧
          cmdts + offset + k - w1.transform_cmdts < order.length := by
        rw [h4b]; constructor
        · omega
        · have : cmdts + offset + k - (cmdts + offset) = k := by omega
          rw [this]; exact hko
      have hidx : order.get ⟨cmdts + offset + k - w1.transform_cmdts, hcond.2⟩
          = order.get ⟨k, hko⟩ := by
        congr 1
        apply Fin.ext
        show cmdts + offset + k - w1.transform_cmdts = k
        rw [h4b]; omega
      have hmem : order.get ⟨k, hko⟩ < pdata.nbPolygon :=
        List.mem_range.mp (hperm.mem_iff.mp (List.get_mem order k hko))
      simp only [List.getElem_map, List.getElem_range]
      rw [t3, dif_pos hcond, hidx, if_pos hmem, h8,
        if_pos (List.mem_range.mpr hmem), h1, h2]
      rfl
  · intro a
    by_cases ha : cmdts + offset ≤ a ∧ a < cmdts + offset + pdata.nbPolygon
    · exact Or.inl ha
    · right
      have hcond : ¬ (w1.transform_cmdts ≤ a ∧ a - w1.transform_cmdts < order.length) := by
        rw [h4b, hlen]; omega
      rw [t3, dif_neg hcond, h3]
  · intro i v
    fin_cases v <;> rfl
  · intro c a
    have e3 : sega3d_cmdt_prepare debug tl pdata cmdts offset
        { w with transform_count := c, transform_cmdts := a } = Except.ok w1 := e
    simp only [prepare_then_transform, e3]
  · intro s hs
    have e2 : sega3d_cmdt_prepare debug tl pdata cmdts offset { w with sort := s }
        = Except.ok { w1 with sort := s } := by
      have := prepare_loop_sort debug tl pdata (List.range pdata.nbPolygon)
        { w with transform_cmdts := cmdts + offset, transform_count := 0 } s
      rw [e] at this
      exact this
    simp only [prepare_then_transform, e2]
    have h6b : w1.sort = w.sort := h6
    have : ops.clear s = ops.clear w1.sort := by rw [h6b]; exact hs
    simp only [sega3d_cmdt_transform, this]

set_option maxRecDepth 20000 in
theorem prepare_transform_output_witness :
    sample_world.copy_capacity = some PACKET_SIZE ∧
    sample_world.staging_fault = false ∧
    sample_pdata.nbPolygon ≤ PACKET_SIZE ∧
    (bucket_sort.iterate (sort_before_iterate bucket_sort sample_pdata sample_world)).1.Perm
      ((List.range sample_pdata.nbPolygon).map cmdt_ptr.copy) ∧
    ∃ w2, prepare_then_transform true sample_tlist bucket_sort sample_pdata 3 2 sample_world
        = Except.ok w2 ∧ w2.staging_fault = false ∧
        w2.transform_count = sample_pdata.nbPolygon :=
  ⟨rfl, rfl, by decide, by decide,
   (prepare_transform_output true sample_tlist bucket_sort sample_pdata 3 2 sample_world
      rfl rfl (by decide) (fun _ _ _ => Or.inl rfl) (by decide)).imp
    (fun _ h => ⟨h.1, h.2.2.1, h.2.2.2.1⟩)⟩

/-! ### Fixed-point products with 0, 1.0 and 2.0 -/

theorem fix16_mul_zero_left (x : Int) : fix16_mul 0 x = 0 := by
  unfold fix16_mul wrap32
  simp

theorem fix16_mul_one_left {x : Int} (hx : InInt32 x) : fix16_mul 65536 x = x := by
  unfold InInt32 at hx
  unfold fix16_mul wrap32
  omega

theorem fix16_mul_two_right {x : Int} (hx : -1073741824 ≤ x ∧ x < 1073741824) :
    fix16_mul x 131072 = 2 * x := by
  unfold fix16_mul wrap32
  omega

theorem divu_fix16_quotient_half {d : Int} (hd0 : d ≠ 0) (heven : d % 2 = 0) :
    divu_fix16_quotient d (d / 2) = 131072 := by
  have hk : d / 2 ≠ 0 := by omega
  have e : d * 65536 = 131072 * (d / 2) := by omega
  unfold divu_fix16_quotient
  rw [e, Int.mul_tdiv_cancel _ hk]
  rfl

theorem matrix_terms_identity :
    matrix_terms_get matrix_identity
      = { tx := 0, ty := 0, tz := 0,
          row0_x := 65536, row0_y := 0, row0_z := 0,
          row1_x := 0, row1_y := 65536, row1_z := 0,
          row2_x := 0, row2_y := 0, row2_z := 65536 } := rfl

/-- C8: with the identity matrix on top of the stack, a non-zero even
projection distance d in the signed 32-bit range, and a polygon whose four
corners have object-space Z = d/2, every request to the division unit is
(d, d/2) and every quotient fetched is 0x20000; for a corner v whose X and Y
have magnitude below 2^30 the screen coordinates stored are
floor(2*px / 65536) and floor(2*py / 65536), less than one unit below the
exact projections 2*px / 65536 and 2*py / 65536. -/
theorem identity_quad_projection (d : Int) (pdata : PDATA) (i : Nat) (c : vdp1_cmdt_t)
    (divu : cpu_divu) (v : Fin 4)
    (hd : InInt32 d) (hd0 : d ≠ 0) (heven : d % 2 = 0)
    (hz : ∀ u, pdata.pntbl ((pdata.pltbl i).Vertices u) Z = d / 2)
    (hx : -1073741824 < pdata.pntbl ((pdata.pltbl i).Vertices v) X ∧
      pdata.pntbl ((pdata.pltbl i).Vertices v) X < 1073741824)
    (hy : -1073741824 < pdata.pntbl ((pdata.pltbl i).Vertices v) Y ∧
      pdata.pntbl ((pdata.pltbl i).Vertices v) Y < 1073741824) :
    (vertex_loop d (matrix_terms_get matrix_identity) pdata.pntbl (pdata.pltbl i) c divu).divu.ops
      = divu.ops ++ ([0, 1, 2, 3] : List (Fin 4)).flatMap
          (fun _ => [divu_op.request d (d / 2), divu_op.fetch]) ∧
    (∀ u : Fin 4, (mesh_vertex d matrix_identity pdata i u).inverse_z = 131072) ∧
    (vertex_loop d (matrix_terms_get matrix_identity) pdata.pntbl (pdata.pltbl i) c
        divu).cmdt.vertex v
      = { x := ⌊((2 * pdata.pntbl ((pdata.pltbl i).Vertices v) X : Int) : ℚ) / 65536⌋,
          y := ⌊((2 * pdata.pntbl ((pdata.pltbl i).Vertices v) Y : Int) : ℚ) / 65536⌋ } ∧
    ((2 * pdata.pntbl ((pdata.pltbl i).Vertices v) X : Int) : ℚ) / 65536 - 1
      < ((vertex_loop d (matrix_terms_get matrix_identity) pdata.pntbl (pdata.pltbl i) c
          divu).cmdt.vertex v).x ∧
    ((2 * pdata.pntbl ((pdata.pltbl i).Vertices v) Y : Int) : ℚ) / 65536 - 1
      < ((vertex_loop d (matrix_terms_get matrix_identity) pdata.pntbl (pdata.pltbl i) c
          divu).cmdt.vertex v).y := by
  have hhalf : InInt32 (d / 2) := by unfold InInt32 at hd ⊢; omega
  have hsub : wrap32 (d - d / 2) = d / 2 := by
    unfold InInt32 at hd; unfold wrap32; omega
  -- the divisor and the quotient of every corner
  have keyq : ∀ u : Fin 4,
      (polygon_vertex d (matrix_terms_get matrix_identity) pdata i u).divisor = d / 2 ∧
      (polygon_vertex d (matrix_terms_get matrix_identity) pdata i u).inverse_z = 131072 := by
    intro u
    simp only [polygon_vertex, transform_vertex, matrix_terms_identity,
      cpu_divu_quotient_get, cpu_divu_fix16_set, add32, sub32, hz u,
      fix16_mul_zero_left, add_zero, zero_add, wrap32_zero,
      fix16_mul_one_left hhalf, wrap32_of_InInt32 hhalf, hsub,
      divu_fix16_quotient_half hd0 heven, and_self]
  -- the screen coordinates of the corner v
  have hxr : InInt32 (pdata.pntbl ((pdata.pltbl i).Vertices v) X) := by
    unfold InInt32; omega
  have hyr : InInt32 (pdata.pntbl ((pdata.pltbl i).Vertices v) Y) := by
    unfold InInt32; omega
  have hx2 : InInt32 (2 * pdata.pntbl ((pdata.pltbl i).Vertices v) X) := by
    unfold InInt32; omega
  have hy2 : InInt32 (2 * pdata.pntbl ((pdata.pltbl i).Vertices v) Y) := by
    unfold InInt32; omega
  have keyv : (polygon_vertex d (matrix_terms_get matrix_identity) pdata i v).proj_2d
      = { x := 2 * pdata.pntbl ((pdata.pltbl i).Vertices v) X / 65536,
          y := 2 * pdata.pntbl ((pdata.pltbl i).Vertices v) Y / 65536 } := by
    simp only [polygon_vertex, transform_vertex, matrix_terms_identity,
      cpu_divu_quotient_get, cpu_divu_fix16_set, add32, sub32, hz v,
      fix16_mul_zero_left, add_zero, zero_add, wrap32_zero,
      fix16_mul_one_left hhalf, fix16_mul_one_left hxr, fix16_mul_one_left hyr,
      wrap32_of_InInt32 hhalf, wrap32_of_InInt32 hxr, wrap32_of_InInt32 hyr, hsub,
      divu_fix16_quotient_half hd0 heven,
      fix16_mul_two_right ⟨le_of_lt hx.1, hx.2⟩,
      fix16_mul_two_right ⟨le_of_lt hy.1, hy.2⟩,
      screen_coord_eq hx2, screen_coord_eq hy2]
  have hfloor : ∀ z : Int, ⌊((2 * z : Int) : ℚ) / 65536⌋ = 2 * z / 65536 := by
    intro z
    simpa using floor_div_eq (2 * z) 65536
  have hv : (vertex_loop d (matrix_terms_get matrix_identity) pdata.pntbl (pdata.pltbl i) c
        divu).cmdt.vertex v
      = { x := ⌊((2 * pdata.pntbl ((pdata.pltbl i).Vertices v) X : Int) : ℚ) / 65536⌋,
          y := ⌊((2 * pdata.pntbl ((pdata.pltbl i).Vertices v) Y : Int) : ℚ) / 65536⌋ } := by
    rw [vertex_loop_cmdt, hfloor, hfloor, ← keyv]
    fin_cases v <;> rfl
  refine ⟨?_, fun u => (keyq u).2, hv, ?_, ?_⟩
  · rw [vertex_loop_ops]
    simp only [polygon_ops, (keyq _).1]
  · rw [hv]
    exact Int.sub_one_lt_floor _
  · rw [hv]
    exact Int.sub_one_lt_floor _

theorem identity_quad_projection_witness :
    InInt32 131072 ∧ (131072 : Int) ≠ 0 ∧
    (mesh_vertex 131072 matrix_identity sample_pdata 0 0).inverse_z = 131072 :=
  ⟨by decide, by decide,
   (identity_quad_projection 131072 sample_pdata 0 cmdt_zero divu_idle 0 (by decide) (by decide)
      (by decide) (by decide) (by decide) (by decide)).2.1 0⟩

theorem divisor_is_distance_minus_camera_z_witness :
    InInt32 sample_world.distance ∧
    ((mesh_vertex sample_world.distance sample_world.matrix_top sample_pdata 0 0).divisor = 0 ↔
      (mesh_vertex sample_world.distance sample_world.matrix_top sample_pdata 0 0).camera Z
        = sample_world.distance) :=
  ⟨by decide,
   ((divisor_is_distance_minus_camera_z bucket_sort sample_pdata sample_world
      (by decide)).2 0 0).2⟩

theorem sort_depth_is_average_witness :
    InInt32 (polygon_depth_sum sample_world.distance (matrix_terms_get matrix_identity)
      sample_pdata 1) ∧
    (polygon_step bucket_sort (matrix_terms_get matrix_identity) sample_pdata sample_world 1).sort
      = bucket_sort.add sample_world.sort (cmdt_ptr.copy 1)
          ⌊((polygon_depth_sum sample_world.distance (matrix_terms_get matrix_identity)
              sample_pdata 1 : Int) : ℚ) / 262144⌋ :=
  ⟨by decide,
   (sort_depth_is_average bucket_sort (matrix_terms_get matrix_identity) sample_pdata
      sample_world 1 (by decide)).1⟩

/-! ### `fix16_mat33_mul` -/

theorem store_same {α : Type} (m : Nat → α) (i : Nat) (x : α) : store m i x i = x := by
  simp [store]

theorem store_other {α : Type} (m : Nat → α) {i j : Nat} (x : α) (h : j ≠ i) :
    store m i x j = m j := by
  simp [store, h]

/-- C9: when the result matrix is distinct from both operands,
`fix16_mat33_mul` leaves in result[i][j] the dot product of row i of m0 with
column j of m1, for every i and j, the operands being read as they were before
the call; no other matrix changes. -/
theorem mat33_mul_row_by_column (dot : fix16_vec3_t → fix16_vec3_t → Int)
    (mem : Nat → fix16_mat33_t) (m0 m1 result : Nat)
    (h0 : result ≠ m0) (h1 : result ≠ m1) :
    (∀ i j : Fin 3, (fix16_mat33_mul dot mem m0 m1 result result).frow i j
      = dot ((mem m0).row i) ((mem m1).col j)) ∧
    (∀ p, p = result ∨ fix16_mat33_mul dot mem m0 m1 result p = mem p) := by
  have h0s : m0 ≠ result := fun h => h0 h.symm
  have h1s : m1 ≠ result := fun h => h1 h.symm
  constructor
  · intro i j
    simp only [fix16_mat33_mul, frow_store, store_same, store_other _ _ h0s,
      store_other _ _ h1s]
    fin_cases i <;> fin_cases j <;> rfl
  · intro p
    by_cases hp : p = result
    · exact Or.inl hp
    · right
      simp only [fix16_mat33_mul, frow_store, store_other _ _ hp]

theorem mat33_mul_row_by_column_witness :
    (2 : Nat) ≠ 0 ∧ (2 : Nat) ≠ 1 ∧
    (fix16_mat33_mul sample_dot sample_mats 0 1 2 2).frow 0 1
      = sample_dot ((sample_mats 0).row 0) ((sample_mats 1).col 1) :=
  ⟨by decide, by decide,
   (mat33_mul_row_by_column sample_dot sample_mats 0 1 2 (by decide) (by decide)).1 0 1⟩

/-! ### `fix16_mat33_lookat` -/

theorem row_row_set (m : fix16_mat33_t) (i k : Fin 3) (v : fix16_vec3_t) :
    (m.row_set i v).row k = if k = i then v else m.row k := by
  fin_cases i <;> fin_cases k <;> rfl

/-- C10: `fix16_mat33_lookat` leaves in row 2 of the result the normalized
difference to - from, and in row 0 the normalized cross product of that
normalized row 2 with up. -/
theorem lookat_forward_right (ops : vec3_ops) (v_from v_to up : fix16_vec3_t)
    (result : fix16_mat33_t) :
    (fix16_mat33_lookat ops v_from v_to up result).row 2
      = ops.normalize (ops.sub v_to v_from) ∧
    (fix16_mat33_lookat ops v_from v_to up result).row 0
      = ops.normalize (ops.cross (ops.normalize (ops.sub v_to v_from)) up) := by
  simp [fix16_mat33_lookat, row_row_set]

/-- What line 109 leaves in row 1 of the result of `fix16_mat33_lookat`: the
outcome of `fix16_vec3_normalize` on the cross product of the rows 2 and 0
stored by the same call. -/
theorem lookat_up_row_is_normalized (ops : vec3_ops) (v_from v_to up : fix16_vec3_t)
    (result : fix16_mat33_t) :
    (fix16_mat33_lookat ops v_from v_to up result).row 1
      = ops.normalize (ops.cross ((fix16_mat33_lookat ops v_from v_to up result).row 2)
          ((fix16_mat33_lookat ops v_from v_to up result).row 0)) := by
  simp [fix16_mat33_lookat, row_row_set]

/-- C11 at the failing input: with the sample vector helpers, from = (0, 0, 0),
to = (1.0, 1.0, 0) and up = (0, 0, 1.0), row 1 of the result of
`fix16_mat33_lookat` is (0, 0, -65536) while the cross product of the rows 2
and 0 stored in the same call, which the comment at lines 95-97 names as the
up row, is (0, 0, -65537). In general row 1 is what `fix16_vec3_normalize`
(line 109) makes of that cross product, for all vector helpers, vectors and
prior contents of the result. -/
theorem lookat_up_row_not_cross :
    (fix16_mat33_lookat sample_vec3_ops { x := 0, y := 0, z := 0 }
        { x := 65536, y := 65536, z := 0 } { x := 0, y := 0, z := 65536 } mat33_zero).row 1
      = { x := 0, y := 0, z := -65536 } ∧
    sample_vec3_ops.cross
        ((fix16_mat33_lookat sample_vec3_ops { x := 0, y := 0, z := 0 }
          { x := 65536, y := 65536, z := 0 } { x := 0, y := 0, z := 65536 } mat33_zero).row 2)
        ((fix16_mat33_lookat sample_vec3_ops { x := 0, y := 0, z := 0 }
          { x := 65536, y := 65536, z := 0 } { x := 0, y := 0, z := 65536 } mat33_zero).row 0)
      = { x := 0, y := 0, z := -65537 } ∧
    (fix16_mat33_lookat sample_vec3_ops { x := 0, y := 0, z := 0 }
        { x := 65536, y := 65536, z := 0 } { x := 0, y := 0, z := 65536 } mat33_zero).row 1
      ≠ sample_vec3_ops.cross
        ((fix16_mat33_lookat sample_vec3_ops { x := 0, y := 0, z := 0 }
          { x := 65536, y := 65536, z := 0 } { x := 0, y := 0, z := 65536 } mat33_zero).row 2)
        ((fix16_mat33_lookat sample_vec3_ops { x := 0, y := 0, z := 0 }
          { x := 65536, y := 65536, z := 0 } { x := 0, y := 0, z := 65536 } mat33_zero).row 0) ∧
    (∀ (ops : vec3_ops) (v_from v_to up : fix16_vec3_t) (result : fix16_mat33_t),
      (fix16_mat33_lookat ops v_from v_to up result).row 1
        = ops.normalize (ops.cross ((fix16_mat33_lookat ops v_from v_to up result).row 2)
            ((fix16_mat33_lookat ops v_from v_to up result).row 0))) := by
  refine ⟨?_, ?_, ?_, lookat_up_row_is_normalized⟩ <;> decide

/-! ### The axis rotations and `fix16_mat33_rotation_create` -/

/-- What `fix16_mat33_x_rotate` leaves in the result matrix, for any two
pointers: the columns 1 and 2 computed from the terms `m0` held before the
call, the column 0 as the result held it. -/
theorem x_rotate_result (sincos : Int → Int × Int) (mem : Nat → fix16_mat33_t)
    (m0 : Nat) (angle : Int) (result : Nat) :
    fix16_mat33_x_rotate sincos mem m0 angle result result
      = { m00 := (mem result).m00,
          m01 := add32 (fix16_mul (mem m0).m01 (sincos angle).2)
            (fix16_mul (mem m0).m02 (sincos angle).1),
          m02 := add32 (neg32 (fix16_mul (mem m0).m01 (sincos angle).1))
            (fix16_mul (mem m0).m02 (sincos angle).2),
          m10 := (mem result).m10,
          m11 := add32 (fix16_mul (mem m0).m11 (sincos angle).2)
            (fix16_mul (mem m0).m12 (sincos angle).1),
          m12 := add32 (neg32 (fix16_mul (mem m0).m11 (sincos angle).1))
            (fix16_mul (mem m0).m12 (sincos angle).2),
          m20 := (mem result).m20,
          m21 := add32 (fix16_mul (mem m0).m21 (sincos angle).2)
            (fix16_mul (mem m0).m22 (sincos angle).1),
          m22 := add32 (neg32 (fix16_mul (mem m0).m21 (sincos angle).1))
            (fix16_mul (mem m0).m22 (sincos angle).2) } := by
  simp only [fix16_mat33_x_rotate, frow_store, store_same]
  rfl

theorem y_rotate_result (sincos : Int → Int × Int) (mem : Nat → fix16_mat33_t)
    (m0 : Nat) (angle : Int) (result : Nat) :
    fix16_mat33_y_rotate sincos mem m0 angle result result
      = { m00 := sub32 (fix16_mul (mem m0).m00 (sincos angle).2)
            (fix16_mul (mem m0).m02 (sincos angle).1),
          m01 := (mem result).m01,
          m02 := add32 (fix16_mul (mem m0).m00 (sincos angle).1)
            (fix16_mul (mem m0).m02 (sincos angle).2),
          m10 := sub32 (fix16_mul (mem m0).m10 (sincos angle).2)
            (fix16_mul (mem m0).m12 (sincos angle).1),
          m11 := (mem result).m11,
          m12 := add32 (fix16_mul (mem m0).m10 (sincos angle).1)
            (fix16_mul (mem m0).m12 (sincos angle).2),
          m20 := sub32 (fix16_mul (mem m0).m20 (sincos angle).2)
            (fix16_mul (mem m0).m22 (sincos angle).1),
          m21 := (mem result).m21,
          m22 := add32 (fix16_mul (mem m0).m20 (sincos angle).1)
            (fix16_mul (mem m0).m22 (sincos angle).2) } := by
  simp only [fix16_mat33_y_rotate, frow_store, store_same]
  rfl

theorem z_rotate_result (sincos : Int → Int × Int) (mem : Nat → fix16_mat33_t)
    (m0 : Nat) (angle : Int) (result : Nat) :
    fix16_mat33_z_rotate sincos mem m0 angle result result
      = { m00 := add32 (fix16_mul (mem m0).m00 (sincos angle).2)
            (fix16_mul (mem m0).m01 (sincos angle).1),
          m01 := add32 (neg32 (fix16_mul (mem m0).m00 (sincos angle).1))
            (fix16_mul (mem m0).m01 (sincos angle).2),
          m02 := (mem result).m02,
          m10 := add32 (fix16_mul (mem m0).m10 (sincos angle).2)
            (fix16_mul (mem m0).m11 (sincos angle).1),
          m11 := add32 (neg32 (fix16_mul (mem m0).m10 (sincos angle).1))
            (fix16_mul (mem m0).m11 (sincos angle).2),
          m12 := (mem result).m12,
          m20 := add32 (fix16_mul (mem m0).m20 (sincos angle).2)
            (fix16_mul (mem m0).m21 (sincos angle).1),
          m21 := add32 (neg32 (fix16_mul (mem m0).m20 (sincos angle).1))
            (fix16_mul (mem m0).m21 (sincos angle).2),
          m22 := (mem result).m22 } := by
  simp only [fix16_mat33_z_rotate, frow_store, store_same]
  rfl

theorem rotation_create_result (sincos : Int → Int × Int) (rx ry rz : Int)
    (result : fix16_mat33_t) :
    fix16_mat33_rotation_create sincos rx ry rz result
      = { m00 := fix16_mul (sincos ry).2 (sincos rz).2,
          m01 := add32 (fix16_mul (fix16_mul (sincos rx).1 (sincos ry).1) (sincos rz).2)
            (fix16_mul (sincos rx).2 (sincos rz).1),
          m02 := add32
            (fix16_mul (neg32 (fix16_mul (sincos rx).2 (sincos ry).1)) (sincos rz).2)
            (fix16_mul (sincos rx).1 (sincos rz).1),
          m10 := fix16_mul (neg32 (sincos ry).2) (sincos rz).1,
          m11 := add32
            (fix16_mul (neg32 (fix16_mul (sincos rx).1 (sincos ry).1)) (sincos rz).1)
            (fix16_mul (sincos rx).2 (sincos rz).2),
          m12 := add32 (fix16_mul (fix16_mul (sincos rx).2 (sincos ry).1) (sincos rz).1)
            (fix16_mul (sincos rx).1 (sincos rz).2),
          m20 := (sincos ry).1,
          m21 := fix16_mul (neg32 (sincos rx).1) (sincos ry).2,
          m22 := fix16_mul (sincos rx).2 (sincos ry).2 } := rfl

theorem mat33_transpose_eq (m : fix16_mat33_t) :
    mat33_transpose m
      = { m00 := m.m00, m01 := m.m10, m02 := m.m20,
          m10 := m.m01, m11 := m.m11, m12 := m.m21,
          m20 := m.m02, m21 := m.m12, m22 := m.m22 } := rfl

theorem mat33_identity_eq :
    mat33_identity
      = { m00 := 65536, m01 := 0, m02 := 0, m10 := 0, m11 := 65536, m12 := 0,
          m20 := 0, m21 := 0, m22 := 65536 } := rfl

theorem fix16_mul_zero_right (x : Int) : fix16_mul x 0 = 0 := by
  unfold fix16_mul wrap32
  simp

theorem fix16_mul_one_left_wrap (x : Int) : fix16_mul 65536 x = wrap32 x := by
  unfold fix16_mul
  congr 1
  omega

theorem fix16_mul_one_right_wrap (x : Int) : fix16_mul x 65536 = wrap32 x := by
  unfold fix16_mul
  congr 1
  omega

theorem fix16_mul_neg_one_left_wrap (x : Int) : fix16_mul (-65536) x = wrap32 (-x) := by
  unfold fix16_mul
  congr 1
  omega

theorem neg32_zero : neg32 0 = 0 := rfl

theorem neg32_one : neg32 65536 = -65536 := rfl

/-- C12 fails as stated: with the sample table (sincos 0 = (0, 1.0), a quarter
turn = (1.0, 0)), `fix16_mat33_rotation_create` of a quarter turn about one
axis differs from the rotation about that axis applied in place to the
identity, for each of the three axes. -/
theorem rotation_create_not_axis_rotation :
    sample_sincos 0 = (0, FIX16_ONE) ∧
    fix16_mat33_rotation_create sample_sincos 16384 0 0 mat33_zero
      ≠ fix16_mat33_x_rotate sample_sincos (fun _ => mat33_identity) 0 16384 0 0 ∧
    fix16_mat33_rotation_create sample_sincos 0 16384 0 mat33_zero
      ≠ fix16_mat33_y_rotate sample_sincos (fun _ => mat33_identity) 0 16384 0 0 ∧
    fix16_mat33_rotation_create sample_sincos 0 0 16384 mat33_zero
      ≠ fix16_mat33_z_rotate sample_sincos (fun _ => mat33_identity) 0 16384 0 0 := by
  refine ⟨?_, ?_, ?_, ?_⟩ <;> decide

/-- C12 as amended: taking sincos(0) = (0, FIX16_ONE) and the sine of a in the
signed 32-bit range, for every angle a the matrix
`fix16_mat33_rotation_create(a, 0, 0)` is the transpose of the matrix obtained
by applying `fix16_mat33_x_rotate` with angle a in place to the identity, and
likewise (0, a, 0) with `fix16_mat33_y_rotate` and (0, 0, a) with
`fix16_mat33_z_rotate`. -/
theorem rotation_create_is_transposed_axis_rotation (sincos : Int → Int × Int) (a : Int)
    (r : fix16_mat33_t)
    (h0 : sincos 0 = (0, FIX16_ONE))
    (hs : InInt32 (sincos a).1) :
    fix16_mat33_rotation_create sincos a 0 0 r
      = mat33_transpose (fix16_mat33_x_rotate sincos (fun _ => mat33_identity) 0 a 0 0) ∧
    fix16_mat33_rotation_create sincos 0 a 0 r
      = mat33_transpose (fix16_mat33_y_rotate sincos (fun _ => mat33_identity) 0 a 0 0) ∧
    fix16_mat33_rotation_create sincos 0 0 a r
      = mat33_transpose (fix16_mat33_z_rotate sincos (fun _ => mat33_identity) 0 a 0 0) := by
  obtain ⟨hs1, hs2⟩ := hs
  refine ⟨?_, ?_, ?_⟩
  · rw [rotation_create_result, x_rotate_result, mat33_transpose_eq]
    simp only [h0, mat33_identity_eq, FIX16_ONE, fix16_mat33_t.mk.injEq,
      fix16_mul_zero_left, fix16_mul_zero_right, fix16_mul_one_left_wrap,
      fix16_mul_one_right_wrap, neg32_zero, neg32_one, fix16_mul_neg_one_left_wrap]
    simp only [add32, sub32, neg32, wrap32]
    refine ⟨?_, ?_, ?_, ?_, ?_, ?_, ?_, ?_, ?_⟩ <;> first | trivial | omega
  · rw [rotation_create_result, y_rotate_result, mat33_transpose_eq]
    simp only [h0, mat33_identity_eq, FIX16_ONE, fix16_mat33_t.mk.injEq,
      fix16_mul_zero_left, fix16_mul_zero_right, fix16_mul_one_left_wrap,
      fix16_mul_one_right_wrap, neg32_zero, neg32_one, fix16_mul_neg_one_left_wrap]
    simp only [add32, sub32, neg32, wrap32]
    refine ⟨?_, ?_, ?_, ?_, ?_, ?_, ?_, ?_, ?_⟩ <;> first | trivial | omega
  · rw [rotation_create_result, z_rotate_result, mat33_transpose_eq]
    simp only [h0, mat33_identity_eq, FIX16_ONE, fix16_mat33_t.mk.injEq,
      fix16_mul_zero_left, fix16_mul_zero_right, fix16_mul_one_left_wrap,
      fix16_mul_one_right_wrap, neg32_zero, neg32_one, fix16_mul_neg_one_left_wrap]
    simp only [add32, sub32, neg32, wrap32]
    refine ⟨?_, ?_, ?_, ?_, ?_, ?_, ?_, ?_, ?_⟩ <;> first | trivial | omega

theorem rotation_create_is_transposed_axis_rotation_witness :
    sample_sincos 0 = (0, FIX16_ONE) ∧
    fix16_mat33_rotation_create sample_sincos 16384 0 0 mat33_zero
      = mat33_transpose
          (fix16_mat33_x_rotate sample_sincos (fun _ => mat33_identity) 0 16384 0 0) :=
  ⟨by decide,
   (rotation_create_is_transposed_axis_rotation sample_sincos 16384 mat33_zero (by decide)
      (by decide)).1⟩

/-! ### The camera basis getters -/

/-- C13: for every active view matrix V, `camera_forward_get` leaves the
normalized vector of the 32-bit negations of V[2][0], V[2][1], V[2][2],
`camera_up_get` the normalized row 1 of V and `camera_right_get` the normalized
row 0 of V; none of the three changes the render state, so V is unchanged. -/
theorem camera_basis_getters (normalize : fix16_vec3_t → fix16_vec3_t) (render : render_t) :
    (camera_forward_get normalize render).1
      = normalize { x := neg32 (render.camera 2 0), y := neg32 (render.camera 2 1),
                    z := neg32 (render.camera 2 2) } ∧
    (camera_up_get normalize render).1
      = normalize { x := render.camera 1 0, y := render.camera 1 1, z := render.camera 1 2 } ∧
    (camera_right_get normalize render).1
      = normalize { x := render.camera 0 0, y := render.camera 0 1, z := render.camera 0 2 } ∧
    (camera_forward_get normalize render).2 = render ∧
    (camera_up_get normalize render).2 = render ∧
    (camera_right_get normalize render).2 = render ∧
    (∀ x : Int, -2147483648 < x ∧ x ≤ 2147483647 → neg32 x = -x) := by
  refine ⟨rfl, rfl, rfl, rfl, rfl, rfl, ?_⟩
  intro x hx
  unfold neg32 wrap32
  omega

/-! ### Staging: the records, the lookups and the texture assertion -/

theorem prepare_step_lookups {S : Type} (debug : Bool) (tl : tlist) (pdata : PDATA)
    (w w1 : world S) (i : Nat) (h : prepare_step debug tl pdata w i = Except.ok w1) :
    w1.tex_lookups = w.tex_lookups ++ [(pdata.attbl i).texno] := by
  unfold prepare_step at h
  simp only [Bool.false_eq_true, if_false] at h
  split at h
  · cases h
  · cases h
    rfl

theorem prepare_loop_lookups {S : Type} (debug : Bool) (tl : tlist) (pdata : PDATA)
    (l : List Nat) (w w1 : world S) (h : prepare_loop debug tl pdata l w = Except.ok w1) :
    w1.tex_lookups = w.tex_lookups ++ l.map (fun i => (pdata.attbl i).texno) := by
  induction l generalizing w with
  | nil =>
    cases h
    simp
  | cons i rest ih =>
    simp only [prepare_loop] at h
    cases hs : prepare_step debug tl pdata w i with
    | error e => rw [hs] at h; cases h
    | ok w2 =>
      rw [hs] at h
      rw [ih w2 h, prepare_step_lookups debug tl pdata w w2 i hs]
      simp

/-- C14: on a state whose staging list holds the PACKET_SIZE records that
`sega3d_init` allocates, with no staging fault so far, and for a mesh whose
polygon count is at most PACKET_SIZE, when no texture assertion fails,
`sega3d_cmdt_prepare` returns without indexing the staging list outside its
records, and for every polygon index i below the polygon count the staged
record i has
control = dir, link = 0, draw mode = atrb, colour = colno, gouraud address =
gstb of attribute i, and texture address and size equal to CGadr and HVsize of
the descriptor the lookup returns for attribute i's texno; the lookups made
are those of polygons 0, 1, ..., n-1, one each in that order; the output list
starts at the given offset with count 0. -/
theorem prepare_stages_records {S : Type} (debug : Bool) (tl : tlist) (pdata : PDATA)
    (cmdts offset : Nat) (w : world S)
    (hcap : w.copy_capacity = some PACKET_SIZE)
    (hfault : w.staging_fault = false)
    (hn : pdata.nbPolygon ≤ PACKET_SIZE)
    (htex : ∀ i, i < pdata.nbPolygon → debug = true →
      (pdata.attbl i).texno = 0 ∨ (pdata.attbl i).texno < tl.count) :
    ∃ w1, sega3d_cmdt_prepare debug tl pdata cmdts offset w = Except.ok w1 ∧
      w1.copy_capacity = some PACKET_SIZE ∧
      w1.staging_fault = false ∧
      (∀ i, i < pdata.nbPolygon →
        (w1.copy_cmdts i).cmd_ctrl = (pdata.attbl i).dir ∧
        (w1.copy_cmdts i).cmd_link = 0 ∧
        (w1.copy_cmdts i).cmd_pmod = (pdata.attbl i).atrb ∧
        (w1.copy_cmdts i).cmd_colr = (pdata.attbl i).colno ∧
        (w1.copy_cmdts i).cmd_grda = (pdata.attbl i).gstb ∧
        (w1.copy_cmdts i).cmd_srca = (tl.tex_get (pdata.attbl i).texno).CGadr ∧
        (w1.copy_cmdts i).cmd_size = (tl.tex_get (pdata.attbl i).texno).HVsize) ∧
      w1.tex_lookups
        = w.tex_lookups ++ (List.range pdata.nbPolygon).map (fun i => (pdata.attbl i).texno) ∧
      w1.transform_cmdts = cmdts + offset ∧
      w1.transform_count = 0 := by
  obtain ⟨w1, e, _, _, _, h4, h5, _, _, h8⟩ :=
    prepare_loop_ok debug tl pdata (List.range pdata.nbPolygon)
      { w with transform_cmdts := cmdts + offset, transform_count := 0 }
      (fun i hi => htex i (List.mem_range.mp hi))
  obtain ⟨c1, c2⟩ := prepare_loop_staging debug tl pdata PACKET_SIZE
    (List.range pdata.nbPolygon)
    { w with transform_cmdts := cmdts + offset, transform_count := 0 } w1
    (fun i hi => Nat.lt_of_lt_of_le (List.mem_range.mp hi) hn) hcap hfault e
  refine ⟨w1, e, c1, c2, ?_, ?_, h4, h5⟩
  · intro i hi
    rw [h8 i, if_pos (List.mem_range.mpr hi)]
    exact ⟨rfl, rfl, rfl, rfl, rfl, rfl, rfl⟩
  · have hl := prepare_loop_lookups debug tl pdata _ _ w1 e
    exact hl

theorem prepare_stages_records_witness :
    sample_world.copy_capacity = some PACKET_SIZE ∧
    sample_world.staging_fault = false ∧
    sample_pdata.nbPolygon ≤ PACKET_SIZE ∧
    ∃ w1, sega3d_cmdt_prepare true sample_tlist sample_pdata 3 2 sample_world = Except.ok w1 ∧
      w1.staging_fault = false ∧
      w1.tex_lookups = [0, 0] ∧ w1.transform_cmdts = 5 ∧ w1.transform_count = 0 :=
  ⟨rfl, rfl, by decide,
   (prepare_stages_records true sample_tlist sample_pdata 3 2 sample_world
      rfl rfl (by decide) (fun _ _ _ => Or.inl rfl)).imp
    (fun _ h => ⟨h.1, h.2.2.1, h.2.2.2.2.1, h.2.2.2.2.2.1, h.2.2.2.2.2.2⟩)⟩

theorem prepare_step_bad {S : Type} (tl : tlist) (pdata : PDATA) (w : world S) (i : Nat)
    (h : texno_bad tl pdata i) :
    ∃ e, prepare_step true tl pdata w i = Except.error e ∧
      e.tex_lookups = w.tex_lookups ++ [(pdata.attbl i).texno] ∧
      (e.copy_cmdts i).cmd_srca = (w.copy_cmdts i).cmd_srca ∧
      (e.copy_cmdts i).cmd_size = (w.copy_cmdts i).cmd_size := by
  obtain ⟨h0, h1⟩ := h
  have hc : (true && ((pdata.attbl i).texno != 0 &&
      !(decide ((pdata.attbl i).texno < tl.count)))) = true := by
    simp [h0, h1]
  unfold prepare_step
  simp only [hc, Bool.false_eq_true, if_false, if_true]
  refine ⟨_, rfl, rfl, ?_, ?_⟩ <;> simp [store]

theorem prepare_loop_append {S : Type} (debug : Bool) (tl : tlist) (pdata : PDATA)
    (l1 l2 : List Nat) (w : world S) :
    prepare_loop debug tl pdata (l1 ++ l2) w
      = match prepare_loop debug tl pdata l1 w with
        | Except.error e => Except.error e
        | Except.ok w1 => prepare_loop debug tl pdata l2 w1 := by
  induction l1 generalizing w with
  | nil => rfl
  | cons i rest ih =>
    simp only [List.cons_append, prepare_loop]
    cases prepare_step debug tl pdata w i with
    | error e => rfl
    | ok w1 => exact ih w1

/-- The staging loop stops at the first index whose texture number fails the
assertion: the lookups of the indices before it and its own have been made,
and its texture address and size have not been written. -/
theorem prepare_loop_error {S : Type} (tl : tlist) (pdata : PDATA) (l1 l2 : List Nat)
    (k : Nat) (w : world S) (h1 : ∀ i ∈ l1, ¬ texno_bad tl pdata i)
    (hk : texno_bad tl pdata k) (hnot : k ∉ l1) :
    ∃ e, prepare_loop true tl pdata (l1 ++ k :: l2) w = Except.error e ∧
      e.tex_lookups = w.tex_lookups ++ (l1 ++ [k]).map (fun i => (pdata.attbl i).texno) ∧
      (e.copy_cmdts k).cmd_srca = (w.copy_cmdts k).cmd_srca ∧
      (e.copy_cmdts k).cmd_size = (w.copy_cmdts k).cmd_size := by
  have hok : ∀ i ∈ l1, true = true →
      (pdata.attbl i).texno = 0 ∨ (pdata.attbl i).texno < tl.count := by
    intro i hi _
    have hb := h1 i hi
    unfold texno_bad at hb
    by_cases hz : (pdata.attbl i).texno = 0
    · exact Or.inl hz
    · right
      by_contra hlt
      exact hb ⟨hz, hlt⟩
  obtain ⟨w1, e1, _, _, _, _, _, _, _, h8⟩ := prepare_loop_ok true tl pdata l1 w hok
  have hl := prepare_loop_lookups true tl pdata l1 w w1 e1
  obtain ⟨e, he, hlook, hsrca, hsize⟩ := prepare_step_bad tl pdata w1 k hk
  refine ⟨e, ?_, ?_, ?_, ?_⟩
  · rw [prepare_loop_append, e1]
    simp only [prepare_loop, he]
  · rw [hlook, hl]
    simp
  · rw [hsrca, h8 k, if_neg hnot]
  · rw [hsize, h8 k, if_neg hnot]

theorem range_split {k n : Nat} (h : k < n) :
    ∃ rest, List.range n = List.range k ++ k :: rest := by
  induction n with
  | zero => omega
  | succ n ih =>
    by_cases hk : k = n
    · subst hk
      exact ⟨[], List.range_succ k⟩
    · obtain ⟨rest, hr⟩ := ih (by omega)
      refine ⟨rest ++ [n], ?_⟩
      rw [List.range_succ, hr]
      simp

theorem exists_least (P : Nat → Prop) (h : ∃ i, P i) :
    ∃ k, P k ∧ ∀ i, i < k → ¬ P i := by
  classical
  exact ⟨Nat.find h, Nat.find_spec h, fun i hi => Nat.find_min h hi⟩

/-- C15 fails as stated: in a `DEBUG` build, on the sample mesh whose only
polygon has texture number 5 with an empty texture list, no lookup has been
made before the call, the call stops on the assertion, and the lookup of
texture number 5 has been made by then. -/
theorem prepare_lookup_precedes_assertion :
    sample_world.tex_lookups = [] ∧
    ∃ e, sega3d_cmdt_prepare true sample_tlist sample_pdata_bad_texture 0 0 sample_world
        = Except.error e ∧ e.tex_lookups = [5] :=
  ⟨rfl, _, rfl, rfl⟩

/-- C15 as amended: in a `DEBUG` build `sega3d_cmdt_prepare` stops on an
assertion if and only if some polygon's texture number is non-zero and not
less than the texture count; when every texture number is 0 it returns,
whatever the texture count; and when it stops, it does so at the first such
polygon k, after the lookups of polygons 0..k have been made (the one with the
out-of-range number included) and before the texture address and size of
record k are written. -/
theorem prepare_debug_assertion {S : Type} (tl : tlist) (pdata : PDATA)
    (cmdts offset : Nat) (w : world S) :
    ((∃ e, sega3d_cmdt_prepare true tl pdata cmdts offset w = Except.error e) ↔
      ∃ i, i < pdata.nbPolygon ∧ texno_bad tl pdata i) ∧
    ((∀ i, i < pdata.nbPolygon → (pdata.attbl i).texno = 0) →
      ∃ w1, sega3d_cmdt_prepare true tl pdata cmdts offset w = Except.ok w1) ∧
    (∀ e, sega3d_cmdt_prepare true tl pdata cmdts offset w = Except.error e →
      ∃ k, k < pdata.nbPolygon ∧ texno_bad tl pdata k ∧
        (∀ i, i < k → ¬ texno_bad tl pdata i) ∧
        e.tex_lookups
          = w.tex_lookups ++ (List.range (k + 1)).map (fun i => (pdata.attbl i).texno) ∧
        (e.copy_cmdts k).cmd_srca = (w.copy_cmdts k).cmd_srca ∧
        (e.copy_cmdts k).cmd_size = (w.copy_cmdts k).cmd_size) := by
  -- without a failing texture number the call returns
  have hgood : (∀ i, i < pdata.nbPolygon → ¬ texno_bad tl pdata i) →
      ∃ w1, sega3d_cmdt_prepare true tl pdata cmdts offset w = Except.ok w1 := by
    intro hall
    obtain ⟨w1, e1, _⟩ := prepare_loop_ok true tl pdata (List.range pdata.nbPolygon)
      { w with transform_cmdts := cmdts + offset, transform_count := 0 }
      (fun i hi _ => by
        have hb := hall i (List.mem_range.mp hi)
        unfold texno_bad at hb
        by_cases hz : (pdata.attbl i).texno = 0
        · exact Or.inl hz
        · right
          by_contra hlt
          exact hb ⟨hz, hlt⟩)
    exact ⟨w1, e1⟩
  -- with one, it stops at the first
  have hbad : (∃ i, i < pdata.nbPolygon ∧ texno_bad tl pdata i) →
      ∃ e k, sega3d_cmdt_prepare true tl pdata cmdts offset w = Except.error e ∧
        k < pdata.nbPolygon ∧ texno_bad tl pdata k ∧
        (∀ i, i < k → ¬ texno_bad tl pdata i) ∧
        e.tex_lookups
          = w.tex_lookups ++ (List.range (k + 1)).map (fun i => (pdata.attbl i).texno) ∧
        (e.copy_cmdts k).cmd_srca = (w.copy_cmdts k).cmd_srca ∧
        (e.copy_cmdts k).cmd_size = (w.copy_cmdts k).cmd_size := by
    intro hex
    obtain ⟨k, ⟨hkn, hkb⟩, hmin⟩ :=
      exists_least (fun i => i < pdata.nbPolygon ∧ texno_bad tl pdata i) hex
    have hmin2 : ∀ i, i < k → ¬ texno_bad tl pdata i :=
      fun i hi hb => hmin i hi ⟨by omega, hb⟩
    obtain ⟨rest, hr⟩ := range_split hkn
    obtain ⟨e, he, hlook, hsrca, hsize⟩ :=
      prepare_loop_error tl pdata (List.range k) rest k
        { w with transform_cmdts := cmdts + offset, transform_count := 0 }
        (fun i hi => hmin2 i (List.mem_range.mp hi)) hkb (by simp)
    refine ⟨e, k, ?_, hkn, hkb, hmin2, ?_, hsrca, hsize⟩
    · show prepare_loop true tl pdata (List.range pdata.nbPolygon) _ = _
      rw [hr]
      exact he
    · rw [hlook, List.range_succ]
  refine ⟨⟨?_, ?_⟩, ?_, ?_⟩
  · rintro ⟨e, he⟩
    by_contra hno
    obtain ⟨w1, hw1⟩ := hgood (fun i hi hb => hno ⟨i, hi, hb⟩)
    rw [hw1] at he
    cases he
  · intro hex
    obtain ⟨e, _, he, _⟩ := hbad hex
    exact ⟨e, he⟩
  · intro hzero
    exact hgood (fun i hi hb => hb.1 (hzero i hi))
  · intro e he
    by_cases hex : ∃ i, i < pdata.nbPolygon ∧ texno_bad tl pdata i
    · obtain ⟨e2, k, he2, hrest⟩ := hbad hex
      rw [he2] at he
      cases he
      exact ⟨k, hrest⟩
    · obtain ⟨w1, hw1⟩ := hgood (fun i hi hb => hex ⟨i, hi, hb⟩)
      rw [hw1] at he
      cases he

/-! ### `sega3d_init` -/

/-- C16: the first call of `sega3d_init` (on a state not yet initialized, the
allocation succeeding) returns with the pipeline marked initialized, the
projection distance the 32-bit negation of PROJECTION_DISTANCE, the staging
list the allocated one and the matrix stack initialized; a call in any
initialized state, the one after the first call included, returns that state
unchanged, the allocator state with it. -/
theorem sega3d_init_idempotent {S A : Type} (env : init_env A) (s : system S A)
    (list : Nat → vdp1_cmdt_t)
    (h0 : s.w.initialized = false)
    (halloc : (env.vdp1_cmdt_list_alloc s.heap PACKET_SIZE).1 = some list) :
    ∃ s1, sega3d_init env s = Except.ok s1 ∧
      s1.w.initialized = true ∧
      s1.w.distance = neg32 env.PROJECTION_DISTANCE ∧
      s1.w.copy_cmdts = list ∧
      s1.w.matrix_top = env.matrix_init s.w.matrix_top ∧
      s1.heap = (env.vdp1_cmdt_list_alloc s.heap PACKET_SIZE).2 ∧
      sega3d_init env s1 = Except.ok s1 ∧
      (∀ s2 : system S A, s2.w.initialized = true → sega3d_init env s2 = Except.ok s2) ∧
      (-2147483648 < env.PROJECTION_DISTANCE ∧ env.PROJECTION_DISTANCE ≤ 2147483647 →
        s1.w.distance = -env.PROJECTION_DISTANCE) := by
  have hlater : ∀ s2 : system S A, s2.w.initialized = true →
      sega3d_init env s2 = Except.ok s2 := by
    intro s2 h2
    unfold sega3d_init
    simp [h2]
  refine ⟨{ w := { s.w with
              initialized := true,
              distance := neg32 env.PROJECTION_DISTANCE,
              copy_cmdts := list,
              copy_capacity := some PACKET_SIZE,
              matrix_top := env.matrix_init s.w.matrix_top },
            heap := (env.vdp1_cmdt_list_alloc s.heap PACKET_SIZE).2 },
    ?_, rfl, rfl, rfl, rfl, rfl, hlater _ rfl, hlater, ?_⟩
  · unfold sega3d_init
    simp only [h0, Bool.false_eq_true, if_false, halloc]
  · intro hpd
    show neg32 env.PROJECTION_DISTANCE = -env.PROJECTION_DISTANCE
    unfold neg32 wrap32
    omega

theorem sega3d_init_idempotent_witness :
    sample_system.w.initialized = false ∧
    ∃ s1, sega3d_init sample_init_env sample_system = Except.ok s1 ∧
      s1.heap = 1 ∧ s1.w.distance = -131072 ∧ sega3d_init sample_init_env s1 = Except.ok s1 :=
  ⟨rfl,
   (sega3d_init_idempotent sample_init_env sample_system (fun _ => cmdt_zero) rfl rfl).imp
     (fun _ h => ⟨h.1, h.2.2.2.2.2.1, h.2.2.2.2.2.2.2.2 (by decide), h.2.2.2.2.2.2.1⟩)⟩

/-! ### The axis rotations: what is written and what is not -/

/-- C17: applied in place (result and m0 the same matrix), with (s, c) the
sine and cosine of the angle, `fix16_mat33_x_rotate` leaves in every row i
result[i][1] = mul(m0[i][1], c) + mul(m0[i][2], s) and
result[i][2] = -mul(m0[i][1], s) + mul(m0[i][2], c), with column 0 as it was:
the row times [[1,0,0],[0,c,-s],[0,s,c]]. `fix16_mat33_y_rotate` leaves
result[i][0] = mul(m0[i][0], c) - mul(m0[i][2], s) and
result[i][2] = mul(m0[i][0], s) + mul(m0[i][2], c), with column 1 as it was:
the row times [[c,0,s],[0,1,0],[-s,0,c]]. `fix16_mat33_z_rotate` leaves
result[i][0] = mul(m0[i][0], c) + mul(m0[i][1], s) and
result[i][1] = -mul(m0[i][0], s) + mul(m0[i][1], c), with column 2 as it was:
the row times [[c,-s,0],[s,c,0],[0,0,1]]. Every term on the right is the value
m0 held before the call. -/
theorem axis_rotate_in_place (sincos : Int → Int × Int) (mem : Nat → fix16_mat33_t)
    (p : Nat) (angle : Int) (i : Fin 3) :
    ((fix16_mat33_x_rotate sincos mem p angle p p).frow i 0 = (mem p).frow i 0 ∧
     (fix16_mat33_x_rotate sincos mem p angle p p).frow i 1
       = add32 (fix16_mul ((mem p).frow i 1) (sincos angle).2)
           (fix16_mul ((mem p).frow i 2) (sincos angle).1) ∧
     (fix16_mat33_x_rotate sincos mem p angle p p).frow i 2
       = add32 (neg32 (fix16_mul ((mem p).frow i 1) (sincos angle).1))
           (fix16_mul ((mem p).frow i 2) (sincos angle).2)) ∧
    ((fix16_mat33_y_rotate sincos mem p angle p p).frow i 0
       = sub32 (fix16_mul ((mem p).frow i 0) (sincos angle).2)
           (fix16_mul ((mem p).frow i 2) (sincos angle).1) ∧
     (fix16_mat33_y_rotate sincos mem p angle p p).frow i 1 = (mem p).frow i 1 ∧
     (fix16_mat33_y_rotate sincos mem p angle p p).frow i 2
       = add32 (fix16_mul ((mem p).frow i 0) (sincos angle).1)
           (fix16_mul ((mem p).frow i 2) (sincos angle).2)) ∧
    ((fix16_mat33_z_rotate sincos mem p angle p p).frow i 0
       = add32 (fix16_mul ((mem p).frow i 0) (sincos angle).2)
           (fix16_mul ((mem p).frow i 1) (sincos angle).1) ∧
     (fix16_mat33_z_rotate sincos mem p angle p p).frow i 1
       = add32 (neg32 (fix16_mul ((mem p).frow i 0) (sincos angle).1))
           (fix16_mul ((mem p).frow i 1) (sincos angle).2) ∧
     (fix16_mat33_z_rotate sincos mem p angle p p).frow i 2 = (mem p).frow i 2) := by
  rw [x_rotate_result, y_rotate_result, z_rotate_result]
  fin_cases i <;> exact ⟨⟨rfl, rfl, rfl⟩, ⟨rfl, rfl, rfl⟩, ⟨rfl, rfl, rfl⟩⟩

/-- C18: for every memory, every pair of pointers m0 and result and every
angle, `fix16_mat33_x_rotate` leaves column 0 of the result as the result held
it before the call, `fix16_mat33_y_rotate` column 1 and `fix16_mat33_z_rotate`
column 2; with result distinct from m0 the column is therefore not the one of
m0, as on the sample memory with m0 at address 1 and result at address 0. -/
theorem axis_rotate_keeps_own_column :
    (∀ (sincos : Int → Int × Int) (mem : Nat → fix16_mat33_t) (m0 : Nat) (angle : Int)
        (result : Nat) (i : Fin 3),
      (fix16_mat33_x_rotate sincos mem m0 angle result result).frow i 0
        = (mem result).frow i 0 ∧
      (fix16_mat33_y_rotate sincos mem m0 angle result result).frow i 1
        = (mem result).frow i 1 ∧
      (fix16_mat33_z_rotate sincos mem m0 angle result result).frow i 2
        = (mem result).frow i 2) ∧
    ((fix16_mat33_x_rotate sample_sincos sample_mats 1 16384 0 0).col 0
        = { x := 131072, y := 0, z := 0 } ∧
     (sample_mats 1).col 0 = { x := 65536, y := 262144, z := 458752 }) := by
  refine ⟨?_, by decide, by decide⟩
  intro sincos mem m0 angle result i
  rw [x_rotate_result, y_rotate_result, z_rotate_result]
  fin_cases i <;> exact ⟨rfl, rfl, rfl⟩

/-! ### Algebra of `fix16_mat33_mul` -/

/-- The product matrix, component by component. -/
theorem mat33_mul_value_eq (dot : fix16_vec3_t → fix16_vec3_t → Int)
    (a b r : fix16_mat33_t) :
    mat33_mul_value dot a b r
      = { m00 := dot (a.row 0) (b.col 0), m01 := dot (a.row 0) (b.col 1),
          m02 := dot (a.row 0) (b.col 2),
          m10 := dot (a.row 1) (b.col 0), m11 := dot (a.row 1) (b.col 1),
          m12 := dot (a.row 1) (b.col 2),
          m20 := dot (a.row 2) (b.col 0), m21 := dot (a.row 2) (b.col 1),
          m22 := dot (a.row 2) (b.col 2) } := by
  have h02 : (0 : Nat) ≠ 2 := by decide
  have h12 : (1 : Nat) ≠ 2 := by decide
  simp only [mat33_mul_value, fix16_mat33_mul, frow_store, store_same, store_other _ _ h02,
    store_other _ _ h12]
  rfl

/-- C19: when the dot product is symmetric in its two arguments, the
transpose of the product of A and B is, entry for entry, the product of the
transpose of B and the transpose of A, whatever the result matrices held
before. -/
theorem mat33_mul_transpose (dot : fix16_vec3_t → fix16_vec3_t → Int)
    (A B r1 r2 : fix16_mat33_t) (hsym : ∀ u v, dot u v = dot v u) :
    mat33_transpose (mat33_mul_value dot A B r1)
      = mat33_mul_value dot (mat33_transpose B) (mat33_transpose A) r2 := by
  simp only [mat33_mul_value_eq, mat33_transpose_eq, fix16_mat33_t.mk.injEq]
  refine ⟨?_, ?_, ?_, ?_, ?_, ?_, ?_, ?_, ?_⟩ <;> exact hsym _ _

theorem sample_dot_symm (u v : fix16_vec3_t) : sample_dot u v = sample_dot v u := by
  unfold sample_dot
  rw [mul_comm u.x, mul_comm u.y, mul_comm u.z]

theorem mat33_mul_transpose_witness :
    mat33_transpose (mat33_mul_value sample_dot (sample_mats 0) (sample_mats 1) mat33_zero)
      = mat33_mul_value sample_dot (mat33_transpose (sample_mats 1))
          (mat33_transpose (sample_mats 0)) mat33_zero :=
  mat33_mul_transpose sample_dot (sample_mats 0) (sample_mats 1) mat33_zero mat33_zero
    sample_dot_symm

/-- The dot product built from `fix16_mul` products obeys the unit law: a
product with FIX16_ONE returns the other factor when it is in range, and a
product with zero returns zero. -/
theorem products_dot_unit_law : dot_unit_law products_dot := by
  intro v hv
  obtain ⟨⟨hx1, hx2⟩, ⟨hy1, hy2⟩, ⟨hz1, hz2⟩⟩ := hv
  simp only [products_dot, FIX16_ONE, FIX16_ZERO, fix16_mul_zero_left, fix16_mul_zero_right,
    fix16_mul_one_left_wrap, fix16_mul_one_right_wrap]
  simp only [add32, wrap32]
  refine ⟨?_, ?_, ?_, ?_, ?_, ?_⟩ <;> omega

theorem fix16_mat33_identity_eq (m0 : fix16_mat33_t) :
    fix16_mat33_identity m0 = mat33_identity := by
  simp only [fix16_mat33_identity, mat33_identity, fix16_mat33_t.arr_set]

/-- C20: `fix16_mat33_identity` writes the same matrix whatever its argument
held; for a dot product obeying the unit law and every matrix M with
components in the signed 32-bit range, the product of that matrix with M, and
the product of M with it, both equal M, whatever the result matrix held
before. -/
theorem mat33_identity_unit (dot : fix16_vec3_t → fix16_vec3_t → Int)
    (M r : fix16_mat33_t) (hdot : dot_unit_law dot) (hM : mat33_InInt32 M) :
    (∀ m0, fix16_mat33_identity m0 = mat33_identity) ∧
    mat33_mul_value dot mat33_identity M r = M ∧
    mat33_mul_value dot M mat33_identity r = M := by
  refine ⟨fix16_mat33_identity_eq, ?_⟩
  obtain ⟨h00, h01, h02, h10, h11, h12, h20, h21, h22⟩ := hM
  have c0 := hdot (M.col 0) ⟨h00, h10, h20⟩
  have c1 := hdot (M.col 1) ⟨h01, h11, h21⟩
  have c2 := hdot (M.col 2) ⟨h02, h12, h22⟩
  have r0 := hdot (M.row 0) ⟨h00, h01, h02⟩
  have r1 := hdot (M.row 1) ⟨h10, h11, h12⟩
  have r2 := hdot (M.row 2) ⟨h20, h21, h22⟩
  constructor
  · rw [mat33_mul_value_eq]
    have e : M = { m00 := (M.col 0).x, m01 := (M.col 1).x, m02 := (M.col 2).x,
                   m10 := (M.col 0).y, m11 := (M.col 1).y, m12 := (M.col 2).y,
                   m20 := (M.col 0).z, m21 := (M.col 1).z, m22 := (M.col 2).z } := rfl
    conv_rhs => rw [e]
    simp only [fix16_mat33_t.mk.injEq]
    exact ⟨c0.1, c1.1, c2.1, c0.2.1, c1.2.1, c2.2.1, c0.2.2.1, c1.2.2.1, c2.2.2.1⟩
  · rw [mat33_mul_value_eq]
    have e : M = { m00 := (M.row 0).x, m01 := (M.row 0).y, m02 := (M.row 0).z,
                   m10 := (M.row 1).x, m11 := (M.row 1).y, m12 := (M.row 1).z,
                   m20 := (M.row 2).x, m21 := (M.row 2).y, m22 := (M.row 2).z } := rfl
    conv_rhs => rw [e]
    simp only [fix16_mat33_t.mk.injEq]
    exact ⟨r0.2.2.2.1, r0.2.2.2.2.1, r0.2.2.2.2.2, r1.2.2.2.1, r1.2.2.2.2.1, r1.2.2.2.2.2,
      r2.2.2.2.1, r2.2.2.2.2.1, r2.2.2.2.2.2⟩

theorem mat33_identity_unit_witness :
    mat33_InInt32 (sample_mats 1) ∧
    mat33_mul_value products_dot mat33_identity (sample_mats 1) mat33_zero = sample_mats 1 ∧
    mat33_mul_value products_dot (sample_mats 1) mat33_identity mat33_zero = sample_mats 1 :=
  ⟨by unfold mat33_InInt32; decide,
   (mat33_identity_unit products_dot (sample_mats 1) mat33_zero products_dot_unit_law
     (by unfold mat33_InInt32; decide)).2⟩

/-! ### The debug console: `_flush` and the assertions of `_init` -/

theorem flush_dirty (w : dbgio_world) (h : w.dev.state = STATE_BUFFER_DIRTY) :
    (_flush w).dev.state = STATE_BUFFER_DIRTY ||| STATE_BUFFER_FLUSHING ∧
    (_flush w).dma_queue = w.dma_queue ++ [dma_request.page_buffer] := by
  unfold _flush
  simp [h]

theorem flush_not_dirty (w : dbgio_world) (h : w.dev.state ≠ STATE_BUFFER_DIRTY) :
    _flush w = w := by
  unfold _flush
  simp [h]

/-- C21 at the failing input: from the state `_init` sets before its own flush
(STATE_BUFFER_DIRTY), `_flush` sets BUFFER_FLUSHING and enqueues the page
transfer; `_dma_handler` then leaves STATE_INITIALIZED; a `_buffer_write` makes
the state INITIALIZED | BUFFER_DIRTY (3), with BUFFER_DIRTY set and
BUFFER_FLUSHING clear; the next `_flush` changes neither the state nor the DMA
queue. In general `_flush` acts only when the state equals STATE_BUFFER_DIRTY
and returns at once in every state equal to INITIALIZED | BUFFER_DIRTY. -/
theorem flush_skips_write_after_first_flush :
    (_flush sample_dbgio_world).dev.state = 6 ∧
    (_flush sample_dbgio_world).dma_queue
      = [dma_request.font_tables, dma_request.page_buffer] ∧
    (_dma_handler (_flush sample_dbgio_world)).dev.state = STATE_INITIALIZED ∧
    (_buffer_write sample_pnd_config (_dma_handler (_flush sample_dbgio_world)) 0 0 65).dev.state
      = 3 ∧
    3 &&& STATE_BUFFER_DIRTY = STATE_BUFFER_DIRTY ∧
    3 &&& STATE_BUFFER_FLUSHING = 0 ∧
    (_flush (_buffer_write sample_pnd_config
        (_dma_handler (_flush sample_dbgio_world)) 0 0 65)).dev.state = 3 ∧
    (_flush (_buffer_write sample_pnd_config
        (_dma_handler (_flush sample_dbgio_world)) 0 0 65)).dma_queue
      = [dma_request.font_tables, dma_request.page_buffer] ∧
    (∀ w : dbgio_world, w.dev.state = STATE_INITIALIZED ||| STATE_BUFFER_DIRTY →
      _flush w = w) ∧
    (∀ w : dbgio_world, w.dev.state = STATE_BUFFER_DIRTY →
      (_flush w).dev.state = STATE_BUFFER_DIRTY ||| STATE_BUFFER_FLUSHING ∧
      (_flush w).dma_queue = w.dma_queue ++ [dma_request.page_buffer]) ∧
    (∀ w : dbgio_world, w.dev.state ≠ STATE_BUFFER_DIRTY → _flush w = w) := by
  refine ⟨by decide, by decide, by decide, by decide, by decide, by decide, by decide,
    by decide, ?_, flush_dirty, flush_not_dirty⟩
  intro w h
  apply flush_not_dirty
  rw [h]
  decide

theorem init_asserts_font_reject (k : vdp2_consts) (p : dbgio_vdp2_t)
    (h : p.font_fg < 0 ∨ p.font_bg < 0 ∨ 15 < p.font_bg) :
    ∃ n, _init_asserts k (some p) = Except.error n := by
  unfold _init_asserts
  dsimp only
  by_cases h1 : ¬ (p.font_cpd ≠ 0)
  · rw [if_pos h1]; exact ⟨_, rfl⟩
  rw [if_neg h1]
  by_cases h2 : ¬ (p.font_pal ≠ 0)
  · rw [if_pos h2]; exact ⟨_, rfl⟩
  rw [if_neg h2]
  by_cases h3 : ¬ (p.font_fg ≥ 0 ∧ p.font_bg ≤ 15)
  · rw [if_pos h3]; exact ⟨_, rfl⟩
  rw [if_neg h3]
  by_cases h4 : ¬ (p.font_bg ≥ 0 ∧ p.font_bg ≤ 15)
  · rw [if_pos h4]; exact ⟨_, rfl⟩
  exfalso
  omega

theorem init_asserts_font_fg_irrelevant (k : vdp2_consts) (p : dbgio_vdp2_t) (x : Int)
    (hp : 0 ≤ p.font_fg) (hx : 0 ≤ x) :
    _init_asserts k (some { p with font_fg := x }) = _init_asserts k (some p) := by
  unfold _init_asserts
  dsimp only
  simp only [ge_iff_le, hp, hx, true_and]

/-- C22 at the failing input: the assertions of `_init` accept the default
parameters with font_fg changed to 16, and to 255. In general they reject
every font_bg outside 0..15 and every negative font_fg, and their outcome is
the same for all non-negative values of font_fg: no assertion bounds font_fg
from above (line 145 tests font_bg against 15). -/
theorem init_asserts_accept_large_font_fg :
    _init_asserts sample_vdp2_consts (some { _default_params 3 with font_fg := 16 })
      = Except.ok () ∧
    _init_asserts sample_vdp2_consts (some { _default_params 3 with font_fg := 255 })
      = Except.ok () ∧
    (∀ (k : vdp2_consts) (p : dbgio_vdp2_t), p.font_bg < 0 ∨ 15 < p.font_bg →
      ∃ n, _init_asserts k (some p) = Except.error n) ∧
    (∀ (k : vdp2_consts) (p : dbgio_vdp2_t), p.font_fg < 0 →
      ∃ n, _init_asserts k (some p) = Except.error n) ∧
    (∀ (k : vdp2_consts) (p : dbgio_vdp2_t) (x : Int), 0 ≤ p.font_fg → 0 ≤ x →
      _init_asserts k (some { p with font_fg := x }) = _init_asserts k (some p)) := by
  refine ⟨rfl, rfl, ?_, ?_, ?_⟩
  · intro k p h
    exact init_asserts_font_reject k p (Or.inr h)
  · intro k p h
    exact init_asserts_font_reject k p (Or.inl h)
  · intro k p x hp hx
    exact init_asserts_font_fg_irrelevant k p x hp hx

end Yaul
